import Mathlib

/-!
Shallow embedding of the tutor/assignment domain logic of the school
administration backend (Express + Prisma controllers), together with proofs
of the behavioural properties stated in the specification.

The database is modelled as lists of rows (one list per table, kept in
insertion order, as SQLite returns rows by rowid for unfiltered queries);
`find?` models Prisma `findFirst`/`findUnique`, `map` models `update`
(matching on the primary key), `filter` models `deleteMany`, and row
creation appends a row carrying a fresh id drawn from a counter.
Controller bodies are translated statement by statement from
the current controller sources (the grade/assignment controllers wired into
the route files, i.e. the versions that export `updateSection`,
`updateSectionSubjects`, `assignSubjectToTutor` and
`checkDuplicateAssignment`).
-/

namespace Edu

/-! ## Data model (rows of the relevant tables) -/

inductive Role where
  | SUPERADMIN
  | SCHOOL_ADMIN
  | TEACHER
deriving Repr, DecidableEq

structure School where
  id : Nat
  code : String
  isActive : Bool
deriving Repr, DecidableEq

structure Grade where
  id : Nat
  schoolId : Nat
  name : String
  order : Int
  isActive : Bool
deriving Repr, DecidableEq

structure Section where
  id : Nat
  gradeId : Nat
  name : String
  classTutorId : Option Nat
  isActive : Bool
deriving Repr, DecidableEq

structure SectionSubject where
  id : Nat
  sectionId : Nat
  name : String
  isActive : Bool
deriving Repr, DecidableEq

structure TutorSubjectAssignment where
  id : Nat
  tutorId : Nat
  sectionSubjectId : Nat
  isActive : Bool
deriving Repr, DecidableEq

structure Tutor where
  id : Nat
  schoolId : Nat
  name : String
  email : String
  phone : String
  isActive : Bool
deriving Repr, DecidableEq

structure User where
  id : Nat
  name : String
  email : String
  role : Role
  schoolId : Option Nat
  tutorId : Option Nat
deriving Repr, DecidableEq

structure DB where
  schools : List School
  grades : List Grade
  sections : List Section
  sectionSubjects : List SectionSubject
  assignments : List TutorSubjectAssignment
  tutors : List Tutor
  users : List User
  nextId : Nat
deriving Repr, DecidableEq

/-! ## Prisma query helpers -/

/-- `tx.grade.findFirst({ where: { schoolId, name, isActive: true } })` -/
def findGrade (db : DB) (schoolId : Nat) (name : String) : Option Grade :=
  db.grades.find? fun g => g.schoolId == schoolId && g.name == name && g.isActive

/-- `tx.section.findFirst({ where: { gradeId, name, isActive: true } })` -/
def findSection (db : DB) (gradeId : Nat) (name : String) : Option Section :=
  db.sections.find? fun s => s.gradeId == gradeId && s.name == name && s.isActive

/-- `tx.sectionSubject.findFirst({ where: { sectionId, name, isActive: true } })` -/
def findActiveSS (db : DB) (sectionId : Nat) (name : String) : Option SectionSubject :=
  db.sectionSubjects.find? fun ss => ss.sectionId == sectionId && ss.name == name && ss.isActive

/-- `tx.tutorSubjectAssignment.findFirst({ where: { tutorId, sectionSubjectId } })`
(no `isActive` filter: active and inactive rows are both found). -/
def findAssignment (db : DB) (tutorId ssId : Nat) : Option TutorSubjectAssignment :=
  db.assignments.find? fun a => a.tutorId == tutorId && a.sectionSubjectId == ssId

/-- `tx.sectionSubject.create({ data: { name, sectionId, isActive: true } })` -/
def createSectionSubject (db : DB) (sectionId : Nat) (name : String) :
    SectionSubject × DB :=
  let ss : SectionSubject := ⟨db.nextId, sectionId, name, true⟩
  (ss, { db with sectionSubjects := db.sectionSubjects ++ [ss], nextId := db.nextId + 1 })

/-- `tx.tutorSubjectAssignment.create({ data: { tutorId, sectionSubjectId, isActive: true } })` -/
def createAssignment (db : DB) (tutorId ssId : Nat) :
    TutorSubjectAssignment × DB :=
  let a : TutorSubjectAssignment := ⟨db.nextId, tutorId, ssId, true⟩
  (a, { db with assignments := db.assignments ++ [a], nextId := db.nextId + 1 })

/-- `tx.tutorSubjectAssignment.update({ where: { id }, data: { isActive: true } })` -/
def activateAssignment (db : DB) (aid : Nat) : DB :=
  { db with assignments :=
      db.assignments.map fun a => if a.id == aid then { a with isActive := true } else a }

/-- `tx.section.update({ where: { id }, data: { classTutorId } })` -/
def setClassTutor (db : DB) (sid : Nat) (t : Option Nat) : DB :=
  { db with sections :=
      db.sections.map fun s => if s.id == sid then { s with classTutorId := t } else s }

/-! ## Key parsing: `key.match(/^(.+)-([A-Z])$/)`

A key matches exactly when it ends in a hyphen followed by one capital
letter, preceded by a non-empty grade name in which every character is
matched by `.` (which in a JavaScript regex without the `s` flag excludes
the four line terminators). -/

def isDotChar (c : Char) : Bool :=
  !(c == '\n' || c == '\r' || c == '\u2028' || c == '\u2029')

def parseKey (key : String) : Option (String × String) :=
  match key.toList.reverse with
  | c :: '-' :: r1 :: rs =>
    if ('A' ≤ c && c ≤ 'Z') && (r1 :: rs).all isDotChar then
      some (String.mk (r1 :: rs).reverse, String.mk [c])
    else none
  | _ => none

/-! ## smartAssignTutor (assignment controller, current version) -/

/-- An element of the controller's `createdAssignments` array. -/
structure AssignItem where
  id : Nat
  grade : String
  sec : String
  subject : String
  reactivated : Bool
deriving Repr, DecidableEq

/-- An element of the controller's `skippedAssignments` array. -/
structure SkipItem where
  grade : String
  sec : String
  subject : String
  reason : String
deriving Repr, DecidableEq

/-- The mutable state of the `prisma.$transaction` body: the database plus
the `createdAssignments`, `skippedAssignments` and `errors` accumulators. -/
structure TxState where
  db : DB
  created : List AssignItem
  skipped : List SkipItem
  errors : List String
deriving Repr, DecidableEq

/-- The inner duplicate check of `smartAssignTutor`: look up the
assignment row for `(tutorId, ssId)`; if present and active, skip; if
present and inactive, reactivate; otherwise create a new active row. -/
def processAssign (tutorId : Nat) (gname sname subj : String) (ssId : Nat)
    (ts : TxState) : TxState :=
  match findAssignment ts.db tutorId ssId with
  | some ex =>
    if ex.isActive then
      { ts with skipped := ts.skipped ++ [⟨gname, sname, subj, "Already assigned"⟩] }
    else
      { ts with db := activateAssignment ts.db ex.id,
                created := ts.created ++ [⟨ex.id, gname, sname, subj, true⟩] }
  | none =>
    let (na, db2) := createAssignment ts.db tutorId ssId
    { ts with db := db2, created := ts.created ++ [⟨na.id, gname, sname, subj, false⟩] }

/-- One iteration of the per-subject loop: find or create the
`SectionSubject` for this section, then run the duplicate check. -/
def processSubject (tutorId : Nat) (gname sname : String) (sectionId : Nat)
    (subj : String) (ts : TxState) : TxState :=
  match findActiveSS ts.db sectionId subj with
  | some ss => processAssign tutorId gname sname subj ss.id ts
  | none =>
    let (ss, db1) := createSectionSubject ts.db sectionId subj
    processAssign tutorId gname sname subj ss.id { ts with db := db1 }

/-- One iteration of the per-key loop: parse the `"Grade X-A"` key,
resolve the grade and the section, then process every subject name;
each failure records an error and `continue`s. -/
def processKey (schoolId tutorId : Nat) (ts : TxState) (kv : String × List String) :
    TxState :=
  match parseKey kv.1 with
  | none =>
    { ts with errors := ts.errors ++
        ["Invalid key format: " ++ kv.1 ++ ". Expected format: \"Grade X-A\""] }
  | some (gname, sname) =>
    match findGrade ts.db schoolId gname with
    | none => { ts with errors := ts.errors ++ ["Grade not found: " ++ gname] }
    | some g =>
      match findSection ts.db g.id sname with
      | none =>
        { ts with errors := ts.errors ++
            ["Section " ++ sname ++ " not found in " ++ gname] }
      | some sec =>
        kv.2.foldl (fun t subj => processSubject tutorId gname sname sec.id subj t) ts

/-- The name used in the class-tutor conflict message:
`existingClassTutor?.name || 'another tutor'`. -/
def classTutorName (db : DB) (tid : Nat) : String :=
  match db.tutors.find? (fun t => t.id == tid) with
  | some t => if t.name == "" then "another tutor" else t.name
  | none => "another tutor"

/-- Step 2 of the transaction: the class-tutor assignment. If the section
already has a different class tutor an error is recorded and nothing is
written; otherwise `classTutorId` is set to the tutor. -/
def processClassTutor (schoolId tutorId : Nat) (cg cs : Option String)
    (ts : TxState) : TxState × Option (String × String) :=
  match cg, cs with
  | some g, some s =>
    if g == "" || s == "" then (ts, none)
    else
      match findGrade ts.db schoolId g with
      | none =>
        ({ ts with errors := ts.errors ++
            ["Grade " ++ g ++ " not found for class tutor assignment"] }, none)
      | some gr =>
        match findSection ts.db gr.id s with
        | none =>
          ({ ts with errors := ts.errors ++
              ["Section " ++ s ++ " not found in " ++ g ++ " for class tutor assignment"] },
           none)
        | some sec =>
          match sec.classTutorId with
          | some other =>
            if other ≠ tutorId then
              ({ ts with errors := ts.errors ++
                  ["Section " ++ g ++ "-" ++ s ++ " already has " ++
                    classTutorName ts.db other ++ " as class tutor"] }, none)
            else
              ({ ts with db := setClassTutor ts.db sec.id (some tutorId) }, some (g, s))
          | none =>
            ({ ts with db := setClassTutor ts.db sec.id (some tutorId) }, some (g, s))
  | _, _ => (ts, none)

/-- Request body of `POST /schools/:schoolId/assignments`. -/
structure SmartAssignReq where
  tutorId : Nat
  assignments : List (String × List String)
  classGrade : Option String
  classSection : Option String
deriving Repr, DecidableEq

/-- Response of `smartAssignTutor` (status plus the batch result). -/
structure SmartResult where
  status : Nat
  created : List AssignItem
  skipped : List SkipItem
  classTutor : Option (String × String)
  errors : List String
deriving Repr, DecidableEq

/-- The whole `prisma.$transaction` body of `smartAssignTutor`. -/
def smartAssignTx (schoolId tutorId : Nat) (assignments : List (String × List String))
    (cg cs : Option String) (db : DB) : TxState × Option (String × String) :=
  let ts1 := assignments.foldl (processKey schoolId tutorId) ⟨db, [], [], []⟩
  processClassTutor schoolId tutorId cg cs ts1

/-- `smartAssignTutor` controller: verify the tutor belongs to the school,
then run the transaction.  Returns the response and the resulting database. -/
def smartAssignTutor (schoolId : Nat) (req : SmartAssignReq) (db : DB) :
    SmartResult × DB :=
  match db.tutors.find? (fun t => t.id == req.tutorId && t.schoolId == schoolId) with
  | none => (⟨404, [], [], none, []⟩, db)
  | some _ =>
    let (ts, ct) := smartAssignTx schoolId req.tutorId req.assignments
      req.classGrade req.classSection db
    (⟨201, ts.created, ts.skipped, ct, ts.errors⟩, ts.db)

/-! ## updateSectionSubjects (grade controller, current version) -/

/-- `tx.sectionSubject.update({ where: { id }, data: { isActive: true } })` -/
def activateSS (db : DB) (sid : Nat) : DB :=
  { db with sectionSubjects :=
      db.sectionSubjects.map fun ss => if ss.id == sid then { ss with isActive := true } else ss }

/-- `tx.sectionSubject.update({ where: { id }, data: { isActive: false } })` -/
def deactivateSS (db : DB) (sid : Nat) : DB :=
  { db with sectionSubjects :=
      db.sectionSubjects.map fun ss => if ss.id == sid then { ss with isActive := false } else ss }

/-- One iteration of the subject-adding loop of `updateSectionSubjects`:
reactivate the inactive row with this `(sectionId, name)` when it exists,
otherwise create a fresh row. -/
def addSubjectStep (sectionId : Nat) (d : DB) (n : String) : DB :=
  match d.sectionSubjects.find?
      (fun ss => ss.sectionId == sectionId && ss.name == n && ss.isActive == false) with
  | some ex => activateSS d ex.id
  | none => (createSectionSubject d sectionId n).2

/-- `updateSectionSubjects`: replace a section's subject list by the given
names.  Names not yet active are reactivated when an inactive row with the
same `(sectionId, name)` exists and created otherwise; active subjects
whose name is not in the list are deactivated. -/
def updateSectionSubjects (sectionId : Nat) (subjects : List String) (db : DB) :
    Nat × DB :=
  match db.sections.find? (fun s => s.id == sectionId) with
  | none => (404, db)
  | some _ =>
    let currentSubjects := db.sectionSubjects.filter
      fun ss => ss.sectionId == sectionId && ss.isActive
    let currentNames := currentSubjects.map (fun ss => ss.name)
    let toAdd := subjects.filter fun n => !currentNames.contains n
    let db1 := toAdd.foldl (addSubjectStep sectionId) db
    let toDeactivate := currentSubjects.filter fun ss => !subjects.contains ss.name
    let db2 := toDeactivate.foldl (fun d ss => deactivateSS d ss.id) db1
    (200, db2)

/-! ## createTutor / deleteTutor (tutor controller) -/

/-- `createTutor`: validate fields, reject duplicate email in the Tutor or
the User table (409), otherwise create the Tutor and the linked
TEACHER-role User in one transaction. -/
def createTutor (schoolId : Nat) (name email phone : String) (db : DB) : Nat × DB :=
  if name == "" || email == "" || phone == "" then (400, db)
  else
    match db.schools.find? (fun s => s.id == schoolId) with
    | none => (404, db)
    | some _ =>
      match db.tutors.find? (fun t => t.email == email) with
      | some _ => (409, db)
      | none =>
        match db.users.find? (fun u => u.email == email) with
        | some _ => (409, db)
        | none =>
          let t : Tutor := ⟨db.nextId, schoolId, name, email, phone, true⟩
          let u : User := ⟨db.nextId + 1, name, email, Role.TEACHER, some schoolId, some t.id⟩
          (201, { db with tutors := db.tutors ++ [t], users := db.users ++ [u],
                          nextId := db.nextId + 2 })

/-- `deleteTutor`: refuse (400) when the tutor has any subject-assignment
rows or is class tutor of any section, unless `?force=true`; deleting
cascades per the schema (assignments and linked user rows are deleted,
`Section.classTutorId` is set to null). -/
def deleteTutor (tutorId : Nat) (force : Bool) (db : DB) : Nat × DB :=
  match db.tutors.find? (fun t => t.id == tutorId) with
  | none => (404, db)
  | some _ =>
    let nAsg := (db.assignments.filter fun a => a.tutorId == tutorId).length
    let nCls := (db.sections.filter fun s => s.classTutorId == some tutorId).length
    if (0 < nAsg || 0 < nCls) && !force then (400, db)
    else
      (200, { db with
        tutors := db.tutors.filter fun t => !(t.id == tutorId),
        users := db.users.filter fun u => !(u.tutorId == some tutorId),
        assignments := db.assignments.filter fun a => !(a.tutorId == tutorId),
        sections := db.sections.map fun s =>
          if s.classTutorId == some tutorId then { s with classTutorId := none } else s })

/-! ## createGrade (grade controller, current version) -/

/-- The section-creation loop of `createGrade`: create each requested
section under the new grade, then each section's subjects. -/
def createGradeSections (gradeId : Nat) (sections : List (String × List String))
    (db : DB) : DB :=
  sections.foldl (fun d sd =>
    let sec : Section := ⟨d.nextId, gradeId, sd.1, none, true⟩
    let d1 := { d with sections := d.sections ++ [sec], nextId := d.nextId + 1 }
    sd.2.foldl (fun d2 n => (createSectionSubject d2 sec.id n).2) d1) db

/-- `createGrade`: reject a duplicate grade name per school; default the
display order to `count(grades of school) + 1` when unspecified; create
the grade, its sections, and each section's subjects in one transaction. -/
def createGrade (schoolId : Nat) (gradeName : String) (order : Option Int)
    (sections : List (String × List String)) (db : DB) : Nat × DB :=
  if gradeName == "" || sections.isEmpty then (400, db)
  else
    match db.grades.find? (fun g => g.schoolId == schoolId && g.name == gradeName) with
    | some _ => (409, db)
    | none =>
      let gradeOrder := order.getD
        (((db.grades.filter fun g => g.schoolId == schoolId).length : Int) + 1)
      let g : Grade := ⟨db.nextId, schoolId, gradeName, gradeOrder, true⟩
      let db1 := { db with grades := db.grades ++ [g], nextId := db.nextId + 1 }
      (201, createGradeSections g.id sections db1)

/-! ## Remaining assignment operations -/

/-- `assignSubjectToTutor`: single-subject assignment with the same
duplicate check as `smartAssignTutor` (409 when active, reactivate when
inactive, create when absent). -/
def assignSubjectToTutor (schoolId tutorId ssId : Nat) (db : DB) : Nat × DB :=
  match db.tutors.find? (fun t => t.id == tutorId && t.schoolId == schoolId) with
  | none => (404, db)
  | some _ =>
    match db.sectionSubjects.find? (fun ss => ss.id == ssId) with
    | none => (404, db)
    | some _ =>
      match findAssignment db tutorId ssId with
      | some ex => if ex.isActive then (409, db) else (200, activateAssignment db ex.id)
      | none => (201, (createAssignment db tutorId ssId).2)

/-- The first transaction of `updateTutorAssignments` (also the body of
`deleteAllTutorAssignments`): delete every subject assignment of the tutor
and null out every section that has them as class tutor. -/
def clearTutorAssignments (tutorId : Nat) (db : DB) : DB :=
  { db with
    assignments := db.assignments.filter fun a => !(a.tutorId == tutorId),
    sections := db.sections.map fun s =>
      if s.classTutorId == some tutorId then { s with classTutorId := none } else s }

/-- `updateTutorAssignments` (replace all): commit the delete-all
transaction first, then re-invoke `smartAssignTutor` on the result. -/
def updateTutorAssignments (schoolId : Nat) (req : SmartAssignReq) (db : DB) :
    SmartResult × DB :=
  match db.tutors.find? (fun t => t.id == req.tutorId && t.schoolId == schoolId) with
  | none => (⟨404, [], [], none, []⟩, db)
  | some _ => smartAssignTutor schoolId req (clearTutorAssignments req.tutorId db)

/-- `deleteAllTutorAssignments`. -/
def deleteAllTutorAssignments (tutorId : Nat) (db : DB) : Nat × DB :=
  match db.tutors.find? (fun t => t.id == tutorId) with
  | none => (404, db)
  | some _ => (200, clearTutorAssignments tutorId db)

/-- `removeAssignment`: delete one assignment row by id. -/
def removeAssignment (aid : Nat) (db : DB) : Nat × DB :=
  match db.assignments.find? (fun a => a.id == aid) with
  | none => (404, db)
  | some _ => (200, { db with assignments := db.assignments.filter fun a => !(a.id == aid) })

/-! ## Operations touching the assignment table, for the uniqueness invariant -/

inductive AsgOp where
  | smart (schoolId : Nat) (req : SmartAssignReq)
  | single (schoolId tutorId ssId : Nat)
  | replaceAll (schoolId : Nat) (req : SmartAssignReq)
  | deleteAll (tutorId : Nat)
  | remove (aid : Nat)
deriving Repr, DecidableEq

def applyOp (db : DB) (op : AsgOp) : DB :=
  match op with
  | .smart schoolId req => (smartAssignTutor schoolId req db).2
  | .single schoolId tutorId ssId => (assignSubjectToTutor schoolId tutorId ssId db).2
  | .replaceAll schoolId req => (updateTutorAssignments schoolId req db).2
  | .deleteAll tutorId => (deleteAllTutorAssignments tutorId db).2
  | .remove aid => (removeAssignment aid db).2

/-- At most one `TutorSubjectAssignment` row per `(tutorId, sectionSubjectId)`
pair (the uniqueness the schema also enforces with a unique index). -/
def AsgUnique (db : DB) : Prop :=
  db.assignments.Pairwise fun a b =>
    ¬(a.tutorId = b.tutorId ∧ a.sectionSubjectId = b.sectionSubjectId)

instance (db : DB) : Decidable (AsgUnique db) := by
  unfold AsgUnique; infer_instance

/-! ## List helper lemmas -/

theorem find?_append_some {α : Type _} {l t : List α} {p : α → Bool} {a : α}
    (h : l.find? p = some a) : (l ++ t).find? p = some a := by
  simp [List.find?_append, h]

theorem find?_map_pred {α : Type _} (f : α → α) (p : α → Bool)
    (hp : ∀ a, p (f a) = p a) (l : List α) :
    (l.map f).find? p = (l.find? p).map f := by
  rw [List.find?_map]
  have hfp : p ∘ f = p := funext hp
  rw [hfp]

theorem find?_rel {α : Type _} {R : α → α → Prop} {p : α → Bool}
    (hp : ∀ a b, R a b → p b = p a) :
    ∀ {l l' : List α}, List.Forall₂ R l l' →
      (l.find? p = none ∧ l'.find? p = none) ∨
      (∃ a b, l.find? p = some a ∧ l'.find? p = some b ∧ R a b) := by
  intro l l' h
  induction h with
  | nil => left; simp
  | @cons a b l l' hR _ ih =>
    by_cases hpa : p a
    · right
      exact ⟨a, b, List.find?_cons_of_pos _ hpa,
        List.find?_cons_of_pos _ (by rw [hp a b hR]; exact hpa), hR⟩
    · have hpb : ¬ p b := by rw [hp a b hR]; exact hpa
      rw [List.find?_cons_of_neg _ hpa, List.find?_cons_of_neg _ hpb]
      exact ih

theorem forall₂_trans {α : Type _} {R : α → α → Prop}
    (hR : ∀ a b c, R a b → R b c → R a c) :
    ∀ {l₁ l₂ l₃ : List α}, List.Forall₂ R l₁ l₂ → List.Forall₂ R l₂ l₃ →
      List.Forall₂ R l₁ l₃ := by
  intro l₁ l₂ l₃ h₁
  induction h₁ generalizing l₃ with
  | nil => intro h₂; cases h₂; exact .nil
  | cons hab _ ih =>
    intro h₂
    cases h₂ with
    | cons hbc htail => exact .cons (hR _ _ _ hab hbc) (ih htail)

theorem forall₂_append_split {α : Type _} {R : α → α → Prop} :
    ∀ {l₁ l₂ m : List α}, List.Forall₂ R (l₁ ++ l₂) m →
      ∃ m₁ m₂, m = m₁ ++ m₂ ∧ List.Forall₂ R l₁ m₁ ∧ List.Forall₂ R l₂ m₂ := by
  intro l₁
  induction l₁ with
  | nil => intro l₂ m h; exact ⟨[], m, rfl, .nil, h⟩
  | cons a l₁ ih =>
    intro l₂ m h
    cases h with
    | cons hab htail =>
      obtain ⟨m₁, m₂, rfl, h₁, h₂⟩ := ih htail
      exact ⟨_ :: m₁, m₂, rfl, .cons hab h₁, h₂⟩

theorem forall₂_of_refl {α : Type _} {R : α → α → Prop} (hR : ∀ a, R a a)
    (l : List α) : List.Forall₂ R l l :=
  (List.forall₂_same).2 fun a _ => hR a

theorem forall₂_map_self {α : Type _} {R : α → α → Prop} (f : α → α)
    (hR : ∀ a, R a (f a)) (l : List α) : List.Forall₂ R l (l.map f) :=
  (List.forall₂_map_right_iff).2 <| (List.forall₂_same).2 fun a _ => hR a

theorem find?_eq_filter_head {α : Type _} (p : α → Bool) :
    ∀ (l : List α), l.find? p = (l.filter p).head? := by
  intro l
  induction l with
  | nil => rfl
  | cons a l ih =>
    by_cases hpa : p a
    · rw [List.find?_cons_of_pos _ hpa, List.filter_cons_of_pos hpa]; rfl
    · rw [List.find?_cons_of_neg _ hpa,
        List.filter_cons_of_neg (by simpa using hpa)]
      exact ih

/-! ## The monotonicity frame used to prove idempotence of `smartAssignTutor`

During one `smartAssignTutor` transaction the database only evolves along
`dbLE`: grades, tutors, users and schools are untouched, sections change at
most their `classTutorId`, section subjects are only appended, assignment
rows are appended or switched to active. -/

def secLE (s s' : Section) : Prop :=
  s'.id = s.id ∧ s'.gradeId = s.gradeId ∧ s'.name = s.name ∧ s'.isActive = s.isActive

def asgLE (a a' : TutorSubjectAssignment) : Prop :=
  a'.id = a.id ∧ a'.tutorId = a.tutorId ∧ a'.sectionSubjectId = a.sectionSubjectId ∧
    (a.isActive = true → a'.isActive = true)

def dbLE (db db' : DB) : Prop :=
  db'.grades = db.grades ∧
  List.Forall₂ secLE db.sections db'.sections ∧
  db.sectionSubjects <+: db'.sectionSubjects ∧
  (∃ front rest, db'.assignments = front ++ rest ∧
    List.Forall₂ asgLE db.assignments front) ∧
  db'.tutors = db.tutors

theorem secLE_refl (s : Section) : secLE s s := ⟨rfl, rfl, rfl, rfl⟩

theorem asgLE_refl (a : TutorSubjectAssignment) : asgLE a a := ⟨rfl, rfl, rfl, fun h => h⟩

theorem secLE_trans {a b c : Section} (h₁ : secLE a b) (h₂ : secLE b c) : secLE a c := by
  obtain ⟨e1, e2, e3, e4⟩ := h₁
  obtain ⟨f1, f2, f3, f4⟩ := h₂
  exact ⟨f1.trans e1, f2.trans e2, f3.trans e3, f4.trans e4⟩

theorem asgLE_trans {a b c : TutorSubjectAssignment} (h₁ : asgLE a b) (h₂ : asgLE b c) :
    asgLE a c := by
  obtain ⟨e1, e2, e3, e4⟩ := h₁
  obtain ⟨f1, f2, f3, f4⟩ := h₂
  exact ⟨f1.trans e1, f2.trans e2, f3.trans e3, fun h => f4 (e4 h)⟩

theorem dbLE_refl (db : DB) : dbLE db db :=
  ⟨rfl, forall₂_of_refl secLE_refl _, List.prefix_refl _,
    ⟨db.assignments, [], (List.append_nil _).symm, forall₂_of_refl asgLE_refl _⟩, rfl⟩

theorem dbLE_trans {db₁ db₂ db₃ : DB} (h₁ : dbLE db₁ db₂) (h₂ : dbLE db₂ db₃) :
    dbLE db₁ db₃ := by
  obtain ⟨g1, s1, ss1, ⟨f1, r1, ha1, hf1⟩, t1⟩ := h₁
  obtain ⟨g2, s2, ss2, ⟨f2, r2, ha2, hf2⟩, t2⟩ := h₂
  refine ⟨g2.trans g1, forall₂_trans (R := secLE) (fun _ _ _ h1 h2 => secLE_trans h1 h2) s1 s2, ss1.trans ss2,
    ?_, t2.trans t1⟩
  rw [ha1] at hf2
  obtain ⟨m₁, m₂, rfl, hm₁, hm₂⟩ := forall₂_append_split hf2
  exact ⟨m₁, m₂ ++ r2, by rw [ha2, List.append_assoc],
    forall₂_trans (R := asgLE) (fun _ _ _ h1 h2 => asgLE_trans h1 h2) hf1 hm₁⟩

theorem dbLE_createSS (db : DB) (sid : Nat) (n : String) :
    dbLE db (createSectionSubject db sid n).2 := by
  refine ⟨rfl, forall₂_of_refl secLE_refl _, ⟨[_], rfl⟩, ?_, rfl⟩
  exact ⟨db.assignments, [], (List.append_nil _).symm, forall₂_of_refl asgLE_refl _⟩

theorem dbLE_createAsg (db : DB) (tid ssid : Nat) :
    dbLE db (createAssignment db tid ssid).2 := by
  refine ⟨rfl, forall₂_of_refl secLE_refl _, List.prefix_refl _, ?_, rfl⟩
  exact ⟨db.assignments, [⟨db.nextId, tid, ssid, true⟩], rfl, forall₂_of_refl asgLE_refl _⟩

theorem dbLE_activateAsg (db : DB) (aid : Nat) :
    dbLE db (activateAssignment db aid) := by
  refine ⟨rfl, forall₂_of_refl secLE_refl _, List.prefix_refl _, ?_, rfl⟩
  refine ⟨(activateAssignment db aid).assignments, [], (List.append_nil _).symm, ?_⟩
  refine forall₂_map_self _ (fun a => ?_) _
  by_cases h : a.id == aid <;> simp [asgLE, h]

theorem dbLE_setClassTutor (db : DB) (sid : Nat) (t : Option Nat) :
    dbLE db (setClassTutor db sid t) := by
  refine ⟨rfl, ?_, List.prefix_refl _, ?_, rfl⟩
  · refine forall₂_map_self _ (fun s => ?_) _
    by_cases h : s.id == sid <;> simp [secLE, h]
  · exact ⟨db.assignments, [], (List.append_nil _).symm, forall₂_of_refl asgLE_refl _⟩

/-! Stability of the queries along `dbLE`. -/

theorem findGrade_dbLE {db db' : DB} (h : dbLE db db') (sid : Nat) (n : String) :
    findGrade db' sid n = findGrade db sid n := by
  unfold findGrade; rw [h.1]

theorem findSection_dbLE_some {db db' : DB} (h : dbLE db db') {gid : Nat} {n : String}
    {s : Section} (hs : findSection db gid n = some s) :
    ∃ s', findSection db' gid n = some s' ∧ secLE s s' := by
  have hrel := find?_rel (R := secLE)
    (p := fun s => s.gradeId == gid && s.name == n && s.isActive)
    (fun a b hab => by obtain ⟨_, h2, h3, h4⟩ := hab; simp [h2, h3, h4]) h.2.1
  unfold findSection at hs ⊢
  rcases hrel with ⟨h1, _⟩ | ⟨a, b, ha, hb, hab⟩
  · rw [hs] at h1; cases h1
  · rw [hs] at ha; cases ha; exact ⟨b, hb, hab⟩

theorem findSection_dbLE_none {db db' : DB} (h : dbLE db db') {gid : Nat} {n : String}
    (hs : findSection db gid n = none) : findSection db' gid n = none := by
  have hrel := find?_rel (R := secLE)
    (p := fun s => s.gradeId == gid && s.name == n && s.isActive)
    (fun a b hab => by obtain ⟨_, h2, h3, h4⟩ := hab; simp [h2, h3, h4]) h.2.1
  unfold findSection at hs ⊢
  rcases hrel with ⟨_, h2⟩ | ⟨a, b, ha, _, _⟩
  · exact h2
  · rw [hs] at ha; cases ha

theorem findActiveSS_dbLE_some {db db' : DB} (h : dbLE db db') {sid : Nat} {n : String}
    {ss : SectionSubject} (hs : findActiveSS db sid n = some ss) :
    findActiveSS db' sid n = some ss := by
  obtain ⟨t, ht⟩ := h.2.2.1
  unfold findActiveSS at hs ⊢
  rw [← ht]
  exact find?_append_some hs

theorem findAssignment_dbLE_active {db db' : DB} (h : dbLE db db') {tid ssid : Nat}
    {a : TutorSubjectAssignment} (ha : findAssignment db tid ssid = some a)
    (hact : a.isActive = true) :
    ∃ a', findAssignment db' tid ssid = some a' ∧ a'.id = a.id ∧ a'.isActive = true := by
  obtain ⟨front, rest, hfr, hF⟩ := h.2.2.2.1
  have hrel := find?_rel (R := asgLE)
    (p := fun x => x.tutorId == tid && x.sectionSubjectId == ssid)
    (fun x y hxy => by obtain ⟨_, h2, h3, _⟩ := hxy; simp [h2, h3]) hF
  unfold findAssignment at ha ⊢
  rcases hrel with ⟨h1, _⟩ | ⟨x, y, hx, hy, hxy⟩
  · rw [ha] at h1; cases h1
  · rw [ha] at hx; cases hx
    exact ⟨y, by rw [hfr]; exact find?_append_some hy, hxy.1, hxy.2.2.2 hact⟩

/-! ## Branch lemmas for the subject-assignment steps -/

theorem processAssign_eq_skip {ts : TxState} {tid : Nat} {g s subj : String} {ssid : Nat}
    {ex : TutorSubjectAssignment} (h : findAssignment ts.db tid ssid = some ex)
    (ha : ex.isActive = true) :
    processAssign tid g s subj ssid ts =
      { ts with skipped := ts.skipped ++ [⟨g, s, subj, "Already assigned"⟩] } := by
  simp [processAssign, h, ha]

theorem processAssign_eq_react {ts : TxState} {tid : Nat} {g s subj : String} {ssid : Nat}
    {ex : TutorSubjectAssignment} (h : findAssignment ts.db tid ssid = some ex)
    (ha : ex.isActive = false) :
    processAssign tid g s subj ssid ts =
      { ts with db := activateAssignment ts.db ex.id,
                created := ts.created ++ [⟨ex.id, g, s, subj, true⟩] } := by
  simp [processAssign, h, ha]

theorem processAssign_eq_create {ts : TxState} {tid : Nat} {g s subj : String} {ssid : Nat}
    (h : findAssignment ts.db tid ssid = none) :
    processAssign tid g s subj ssid ts =
      { ts with db := (createAssignment ts.db tid ssid).2,
                created := ts.created ++
                  [⟨(createAssignment ts.db tid ssid).1.id, g, s, subj, false⟩] } := by
  simp [processAssign, h, createAssignment]

theorem processSubject_eq_found {ts : TxState} {tid : Nat} {g s : String} {sid : Nat}
    {subj : String} {ss : SectionSubject} (h : findActiveSS ts.db sid subj = some ss) :
    processSubject tid g s sid subj ts = processAssign tid g s subj ss.id ts := by
  simp [processSubject, h]

theorem processSubject_eq_new {ts : TxState} {tid : Nat} {g s : String} {sid : Nat}
    {subj : String} (h : findActiveSS ts.db sid subj = none) :
    processSubject tid g s sid subj ts =
      processAssign tid g s subj (createSectionSubject ts.db sid subj).1.id
        { ts with db := (createSectionSubject ts.db sid subj).2 } := by
  simp [processSubject, h, createSectionSubject]

/-! ## `dbLE` for each step of the transaction -/

theorem dbLE_processAssign (tid : Nat) (g s subj : String) (ssid : Nat) (ts : TxState) :
    dbLE ts.db (processAssign tid g s subj ssid ts).db := by
  cases h : findAssignment ts.db tid ssid with
  | none => rw [processAssign_eq_create h]; exact dbLE_createAsg _ _ _
  | some ex =>
    cases ha : ex.isActive with
    | true => rw [processAssign_eq_skip h ha]; exact dbLE_refl _
    | false => rw [processAssign_eq_react h ha]; exact dbLE_activateAsg _ _

theorem dbLE_processSubject (tid : Nat) (g s : String) (sid : Nat) (subj : String)
    (ts : TxState) : dbLE ts.db (processSubject tid g s sid subj ts).db := by
  cases h : findActiveSS ts.db sid subj with
  | some ss => rw [processSubject_eq_found h]; exact dbLE_processAssign ..
  | none =>
    rw [processSubject_eq_new h]
    exact dbLE_trans (dbLE_createSS ts.db sid subj) (dbLE_processAssign ..)

theorem dbLE_subjFold (tid : Nat) (g s : String) (sid : Nat) (subjects : List String) :
    ∀ ts : TxState,
      dbLE ts.db
        ((subjects.foldl (fun t j => processSubject tid g s sid j t) ts)).db := by
  induction subjects with
  | nil => intro ts; exact dbLE_refl _
  | cons j rest ih =>
    intro ts
    rw [List.foldl_cons]
    exact dbLE_trans (dbLE_processSubject ..) (ih _)

theorem dbLE_processKey (schoolId tid : Nat) (ts : TxState) (kv : String × List String) :
    dbLE ts.db (processKey schoolId tid ts kv).db := by
  unfold processKey
  split
  · exact dbLE_refl _
  · split
    · exact dbLE_refl _
    · split
      · exact dbLE_refl _
      · exact dbLE_subjFold ..

theorem dbLE_keyFold (schoolId tid : Nat) (keys : List (String × List String)) :
    ∀ ts : TxState, dbLE ts.db ((keys.foldl (processKey schoolId tid) ts)).db := by
  induction keys with
  | nil => intro ts; exact dbLE_refl _
  | cons k rest ih =>
    intro ts
    rw [List.foldl_cons]
    exact dbLE_trans (dbLE_processKey ..) (ih _)

theorem dbLE_processClassTutor (schoolId tid : Nat) (cg cs : Option String)
    (ts : TxState) : dbLE ts.db (processClassTutor schoolId tid cg cs ts).1.db := by
  unfold processClassTutor
  split
  · split
    · exact dbLE_refl _
    · split
      · exact dbLE_refl _
      · split
        · exact dbLE_refl _
        · split
          · split
            · exact dbLE_refl _
            · exact dbLE_setClassTutor ..
          · exact dbLE_setClassTutor ..
  · exact dbLE_refl _

/-! ## Frame lemmas: which tables each phase leaves untouched -/

theorem processAssign_frame (tid : Nat) (g s subj : String) (ssid : Nat) (ts : TxState) :
    (processAssign tid g s subj ssid ts).db.grades = ts.db.grades ∧
    (processAssign tid g s subj ssid ts).db.sections = ts.db.sections ∧
    (processAssign tid g s subj ssid ts).db.sectionSubjects = ts.db.sectionSubjects ∧
    (processAssign tid g s subj ssid ts).db.tutors = ts.db.tutors ∧
    (processAssign tid g s subj ssid ts).db.schools = ts.db.schools ∧
    (processAssign tid g s subj ssid ts).db.users = ts.db.users := by
  cases h : findAssignment ts.db tid ssid with
  | none => rw [processAssign_eq_create h]; simp [createAssignment]
  | some ex =>
    cases ha : ex.isActive with
    | true => rw [processAssign_eq_skip h ha]; exact ⟨rfl, rfl, rfl, rfl, rfl, rfl⟩
    | false => rw [processAssign_eq_react h ha]; simp [activateAssignment]

theorem processSubject_frame (tid : Nat) (g s : String) (sid : Nat) (subj : String)
    (ts : TxState) :
    (processSubject tid g s sid subj ts).db.grades = ts.db.grades ∧
    (processSubject tid g s sid subj ts).db.sections = ts.db.sections ∧
    (processSubject tid g s sid subj ts).db.tutors = ts.db.tutors ∧
    (processSubject tid g s sid subj ts).db.schools = ts.db.schools ∧
    (processSubject tid g s sid subj ts).db.users = ts.db.users := by
  cases h : findActiveSS ts.db sid subj with
  | some ss =>
    rw [processSubject_eq_found h]
    obtain ⟨h1, h2, _, h4, h5, h6⟩ := processAssign_frame tid g s subj ss.id ts
    exact ⟨h1, h2, h4, h5, h6⟩
  | none =>
    rw [processSubject_eq_new h]
    obtain ⟨h1, h2, _, h4, h5, h6⟩ := processAssign_frame tid g s subj
      (createSectionSubject ts.db sid subj).1.id
      { ts with db := (createSectionSubject ts.db sid subj).2 }
    refine ⟨h1.trans ?_, h2.trans ?_, h4.trans ?_, h5.trans ?_, h6.trans ?_⟩ <;>
      simp [createSectionSubject]

theorem subjFold_frame (tid : Nat) (g s : String) (sid : Nat) (subjects : List String) :
    ∀ ts : TxState,
      ((subjects.foldl (fun t j => processSubject tid g s sid j t) ts)).db.grades
          = ts.db.grades ∧
      ((subjects.foldl (fun t j => processSubject tid g s sid j t) ts)).db.sections
          = ts.db.sections ∧
      ((subjects.foldl (fun t j => processSubject tid g s sid j t) ts)).db.tutors
          = ts.db.tutors := by
  induction subjects with
  | nil => intro ts; exact ⟨rfl, rfl, rfl⟩
  | cons j rest ih =>
    intro ts
    rw [List.foldl_cons]
    obtain ⟨h1, h2, h3⟩ := ih (processSubject tid g s sid j ts)
    obtain ⟨f1, f2, f3, _, _⟩ := processSubject_frame tid g s sid j ts
    exact ⟨h1.trans f1, h2.trans f2, h3.trans f3⟩

theorem processKey_frame (schoolId tid : Nat) (ts : TxState) (kv : String × List String) :
    (processKey schoolId tid ts kv).db.grades = ts.db.grades ∧
    (processKey schoolId tid ts kv).db.sections = ts.db.sections ∧
    (processKey schoolId tid ts kv).db.tutors = ts.db.tutors := by
  unfold processKey
  split
  · exact ⟨rfl, rfl, rfl⟩
  · split
    · exact ⟨rfl, rfl, rfl⟩
    · split
      · exact ⟨rfl, rfl, rfl⟩
      · exact subjFold_frame ..

theorem keyFold_frame (schoolId tid : Nat) (keys : List (String × List String)) :
    ∀ ts : TxState,
      ((keys.foldl (processKey schoolId tid) ts)).db.grades = ts.db.grades ∧
      ((keys.foldl (processKey schoolId tid) ts)).db.sections = ts.db.sections ∧
      ((keys.foldl (processKey schoolId tid) ts)).db.tutors = ts.db.tutors := by
  induction keys with
  | nil => intro ts; exact ⟨rfl, rfl, rfl⟩
  | cons k rest ih =>
    intro ts
    rw [List.foldl_cons]
    obtain ⟨h1, h2, h3⟩ := ih (processKey schoolId tid ts k)
    obtain ⟨f1, f2, f3⟩ := processKey_frame schoolId tid ts k
    exact ⟨h1.trans f1, h2.trans f2, h3.trans f3⟩

/-! ## The key invariant behind idempotence

After `smartAssignTutor` has processed a subject under a resolved section,
the section has an active `SectionSubject` of that name and the tutor has
an active assignment row on it.  `Settled` states this for a whole map
entry (vacuously when its resolution fails). -/

def ActivePair (db : DB) (tid sid : Nat) (subj : String) : Prop :=
  ∃ ss, findActiveSS db sid subj = some ss ∧
    ∃ a, findAssignment db tid ss.id = some a ∧ a.isActive = true

theorem activePair_mono {db db' : DB} (h : dbLE db db') {tid sid : Nat} {subj : String}
    (hap : ActivePair db tid sid subj) : ActivePair db' tid sid subj := by
  obtain ⟨ss, hss, a, ha, hact⟩ := hap
  obtain ⟨a', ha', _, hact'⟩ := findAssignment_dbLE_active h ha hact
  exact ⟨ss, findActiveSS_dbLE_some h hss, a', ha', hact'⟩

def Settled (db : DB) (schoolId tid : Nat) (kv : String × List String) : Prop :=
  ∀ g sn, parseKey kv.1 = some (g, sn) →
    ∀ gr, findGrade db schoolId g = some gr →
      ∀ sec, findSection db gr.id sn = some sec →
        ∀ subj ∈ kv.2, ActivePair db tid sec.id subj

theorem settled_mono {db db' : DB} (h : dbLE db db') {schoolId tid : Nat}
    {kv : String × List String} (hs : Settled db schoolId tid kv) :
    Settled db' schoolId tid kv := by
  intro g sn hp gr hgr sec' hsec' subj hsubj
  rw [findGrade_dbLE h] at hgr
  cases hsec0 : findSection db gr.id sn with
  | none => rw [findSection_dbLE_none h hsec0] at hsec'; cases hsec'
  | some sec0 =>
    obtain ⟨sec1, hsec1, hrel⟩ := findSection_dbLE_some h hsec0
    rw [hsec'] at hsec1
    injection hsec1 with hsec1
    have hap := activePair_mono h (hs g sn hp gr hgr sec0 hsec0 subj hsubj)
    rw [hsec1, hrel.1]
    exact hap

/-! ## Establishment: each processed subject ends up `ActivePair` -/

theorem processAssign_establishes (tid : Nat) (g s subj : String) (ssid : Nat)
    (ts : TxState) :
    ∃ a, findAssignment (processAssign tid g s subj ssid ts).db tid ssid = some a ∧
      a.isActive = true := by
  cases h : findAssignment ts.db tid ssid with
  | some ex =>
    cases ha : ex.isActive with
    | true => rw [processAssign_eq_skip h ha]; exact ⟨ex, h, ha⟩
    | false =>
      rw [processAssign_eq_react h ha]
      refine ⟨{ ex with isActive := true }, ?_, rfl⟩
      have hasg : (activateAssignment ts.db ex.id).assignments =
          ts.db.assignments.map
            (fun a => if a.id == ex.id then { a with isActive := true } else a) := rfl
      unfold findAssignment at h ⊢
      rw [hasg, find?_map_pred _ _
        (fun a => by by_cases hid : (a.id == ex.id) = true <;> simp [hid]), h]
      simp
  | none =>
    rw [processAssign_eq_create h]
    refine ⟨(createAssignment ts.db tid ssid).1, ?_, rfl⟩
    have hasg : (createAssignment ts.db tid ssid).2.assignments =
        ts.db.assignments ++ [⟨ts.db.nextId, tid, ssid, true⟩] := rfl
    unfold findAssignment at h ⊢
    rw [hasg, List.find?_append, h]
    simp [createAssignment]

theorem processAssign_ss_unchanged (tid : Nat) (g s subj : String) (ssid : Nat)
    (ts : TxState) :
    (processAssign tid g s subj ssid ts).db.sectionSubjects = ts.db.sectionSubjects :=
  (processAssign_frame tid g s subj ssid ts).2.2.1

theorem processSubject_establishes (tid : Nat) (g s : String) (sid : Nat) (subj : String)
    (ts : TxState) :
    ActivePair (processSubject tid g s sid subj ts).db tid sid subj := by
  cases h : findActiveSS ts.db sid subj with
  | some ss =>
    rw [processSubject_eq_found h]
    obtain ⟨a, ha, hact⟩ := processAssign_establishes tid g s subj ss.id ts
    refine ⟨ss, ?_, a, ha, hact⟩
    unfold findActiveSS at h ⊢
    rw [processAssign_ss_unchanged]
    exact h
  | none =>
    rw [processSubject_eq_new h]
    obtain ⟨a, ha, hact⟩ := processAssign_establishes tid g s subj
      (createSectionSubject ts.db sid subj).1.id
      { ts with db := (createSectionSubject ts.db sid subj).2 }
    refine ⟨(createSectionSubject ts.db sid subj).1, ?_, a, ha, hact⟩
    have hss : (createSectionSubject ts.db sid subj).2.sectionSubjects =
        ts.db.sectionSubjects ++ [⟨ts.db.nextId, sid, subj, true⟩] := rfl
    unfold findActiveSS at h ⊢
    rw [processAssign_ss_unchanged]
    show ((createSectionSubject ts.db sid subj).2.sectionSubjects.find? _) = _
    rw [hss, List.find?_append, h]
    simp [createSectionSubject]

theorem subjFold_establishes (tid : Nat) (g s : String) (sid : Nat)
    (subjects : List String) :
    ∀ ts : TxState, ∀ subj ∈ subjects,
      ActivePair ((subjects.foldl (fun t j => processSubject tid g s sid j t) ts)).db
        tid sid subj := by
  induction subjects with
  | nil => intro ts subj h; cases h
  | cons j rest ih =>
    intro ts subj hmem
    rw [List.foldl_cons]
    rcases List.mem_cons.1 hmem with rfl | hrest
    · exact activePair_mono (dbLE_subjFold tid g s sid rest _)
        (processSubject_establishes tid g s sid subj ts)
    · exact ih _ subj hrest

theorem processKey_establishes (schoolId tid : Nat) (ts : TxState)
    (kv : String × List String) :
    Settled (processKey schoolId tid ts kv).db schoolId tid kv := by
  intro g sn hp gr hgr sec hsec subj hsubj
  cases hg0 : findGrade ts.db schoolId g with
  | none =>
    have heq : (processKey schoolId tid ts kv).db = ts.db := by
      simp [processKey, hp, hg0]
    rw [heq, hg0] at hgr
    cases hgr
  | some gr0 =>
    cases hs0 : findSection ts.db gr0.id sn with
    | none =>
      have heq : (processKey schoolId tid ts kv).db = ts.db := by
        simp [processKey, hp, hg0, hs0]
      rw [heq, hg0] at hgr
      injection hgr with hgr
      subst hgr
      rw [heq, hs0] at hsec
      cases hsec
    | some sec0 =>
      have heq : processKey schoolId tid ts kv =
          kv.2.foldl (fun t j => processSubject tid g sn sec0.id j t) ts := by
        simp [processKey, hp, hg0, hs0]
      rw [heq] at hgr hsec ⊢
      have hgframe := (subjFold_frame tid g sn sec0.id kv.2 ts).1
      have hsframe := (subjFold_frame tid g sn sec0.id kv.2 ts).2.1
      unfold findGrade at hgr hg0
      rw [hgframe, hg0] at hgr
      injection hgr with hgr
      subst hgr
      unfold findSection at hsec hs0
      rw [hsframe, hs0] at hsec
      injection hsec with hsec
      subst hsec
      exact subjFold_establishes tid g sn sec0.id kv.2 ts subj hsubj

theorem keyFold_settles (schoolId tid : Nat) (keys : List (String × List String)) :
    ∀ ts : TxState, ∀ kv ∈ keys,
      Settled ((keys.foldl (processKey schoolId tid) ts)).db schoolId tid kv := by
  induction keys with
  | nil => intro ts kv h; cases h
  | cons k rest ih =>
    intro ts kv hmem
    rw [List.foldl_cons]
    rcases List.mem_cons.1 hmem with rfl | hrest
    · exact settled_mono (dbLE_keyFold schoolId tid rest _)
        (processKey_establishes schoolId tid ts kv)
    · exact ih _ kv hrest

/-! ## Re-running the transaction on a settled database is a no-op -/

/-- What one key contributes on a database where it is settled: its skip
items (on success) or its error message (on failure). -/
def keyOutcome (db : DB) (schoolId : Nat) (kv : String × List String) :
    List SkipItem × List String :=
  match parseKey kv.1 with
  | none => ([], ["Invalid key format: " ++ kv.1 ++ ". Expected format: \"Grade X-A\""])
  | some (gname, sname) =>
    match findGrade db schoolId gname with
    | none => ([], ["Grade not found: " ++ gname])
    | some g =>
      match findSection db g.id sname with
      | none => ([], ["Section " ++ sname ++ " not found in " ++ gname])
      | some _ => (kv.2.map fun j => ⟨gname, sname, j, "Already assigned"⟩, [])

theorem processSubject_noop {ts : TxState} {tid : Nat} {g s : String} {sid : Nat}
    {subj : String} (h : ActivePair ts.db tid sid subj) :
    processSubject tid g s sid subj ts =
      { ts with skipped := ts.skipped ++ [⟨g, s, subj, "Already assigned"⟩] } := by
  obtain ⟨ss, hss, a, ha, hact⟩ := h
  rw [processSubject_eq_found hss, processAssign_eq_skip ha hact]

theorem subjFold_noop (tid : Nat) (g s : String) (sid : Nat) (subjects : List String) :
    ∀ ts : TxState, (∀ subj ∈ subjects, ActivePair ts.db tid sid subj) →
      subjects.foldl (fun t j => processSubject tid g s sid j t) ts =
        { ts with skipped := ts.skipped ++
            subjects.map (fun j => ⟨g, s, j, "Already assigned"⟩) } := by
  induction subjects with
  | nil => intro ts _; simp
  | cons j rest ih =>
    intro ts h
    rw [List.foldl_cons, processSubject_noop (h j (List.mem_cons_self j rest)),
      ih { ts with skipped := ts.skipped ++ [⟨g, s, j, "Already assigned"⟩] }
        (fun subj hm => h subj (List.mem_cons_of_mem j hm))]
    simp

theorem processKey_noop {ts : TxState} {schoolId tid : Nat} {kv : String × List String}
    (h : Settled ts.db schoolId tid kv) :
    processKey schoolId tid ts kv =
      { ts with skipped := ts.skipped ++ (keyOutcome ts.db schoolId kv).1,
                errors := ts.errors ++ (keyOutcome ts.db schoolId kv).2 } := by
  cases hp : parseKey kv.1 with
  | none => simp [processKey, keyOutcome, hp]
  | some gs =>
    obtain ⟨g, sn⟩ := gs
    cases hg : findGrade ts.db schoolId g with
    | none => simp [processKey, keyOutcome, hp, hg]
    | some gr =>
      cases hsec : findSection ts.db gr.id sn with
      | none => simp [processKey, keyOutcome, hp, hg, hsec]
      | some sec =>
        have hfold := subjFold_noop tid g sn sec.id kv.2 ts (h g sn hp gr hg sec hsec)
        simp [processKey, keyOutcome, hp, hg, hsec, hfold]

theorem keyFold_noop (schoolId tid : Nat) (keys : List (String × List String)) :
    ∀ ts : TxState, (∀ kv ∈ keys, Settled ts.db schoolId tid kv) →
      keys.foldl (processKey schoolId tid) ts =
        { ts with
            skipped := ts.skipped ++
              (keys.map fun kv => (keyOutcome ts.db schoolId kv).1).flatten,
            errors := ts.errors ++
              (keys.map fun kv => (keyOutcome ts.db schoolId kv).2).flatten } := by
  induction keys with
  | nil => intro ts _; simp
  | cons k rest ih =>
    intro ts h
    rw [List.foldl_cons, processKey_noop (h k (List.mem_cons_self k rest)),
      ih { ts with skipped := ts.skipped ++ (keyOutcome ts.db schoolId k).1,
                   errors := ts.errors ++ (keyOutcome ts.db schoolId k).2 }
        (fun kv hm => h kv (List.mem_cons_of_mem k hm))]
    simp

/-! ## Provenance of `createdAssignments` entries -/

def Resolves (db : DB) (schoolId : Nat) (kv : String × List String) : Prop :=
  ∃ g sn gr sec, parseKey kv.1 = some (g, sn) ∧
    findGrade db schoolId g = some gr ∧ findSection db gr.id sn = some sec

theorem resolves_mono {db db' : DB} (h : dbLE db db') {schoolId : Nat}
    {kv : String × List String} (hr : Resolves db schoolId kv) :
    Resolves db' schoolId kv := by
  obtain ⟨g, sn, gr, sec, hp, hg, hsec⟩ := hr
  obtain ⟨sec', hsec', _⟩ := findSection_dbLE_some h hsec
  exact ⟨g, sn, gr, sec', hp, by rw [findGrade_dbLE h]; exact hg, hsec'⟩

theorem processAssign_created_sub (tid : Nat) (g s subj : String) (ssid : Nat)
    (ts : TxState) :
    ∀ c ∈ (processAssign tid g s subj ssid ts).created,
      c ∈ ts.created ∨ (c.grade = g ∧ c.sec = s ∧ c.subject = subj) := by
  intro c hc
  cases h : findAssignment ts.db tid ssid with
  | none =>
    rw [processAssign_eq_create h] at hc
    rcases List.mem_append.1 hc with hl | hr
    · exact Or.inl hl
    · right; rcases List.mem_singleton.1 hr with rfl; exact ⟨rfl, rfl, rfl⟩
  | some ex =>
    cases ha : ex.isActive with
    | true => rw [processAssign_eq_skip h ha] at hc; exact Or.inl hc
    | false =>
      rw [processAssign_eq_react h ha] at hc
      rcases List.mem_append.1 hc with hl | hr
      · exact Or.inl hl
      · right; rcases List.mem_singleton.1 hr with rfl; exact ⟨rfl, rfl, rfl⟩

theorem processSubject_created_sub (tid : Nat) (g s : String) (sid : Nat) (subj : String)
    (ts : TxState) :
    ∀ c ∈ (processSubject tid g s sid subj ts).created,
      c ∈ ts.created ∨ (c.grade = g ∧ c.sec = s ∧ c.subject = subj) := by
  intro c hc
  cases h : findActiveSS ts.db sid subj with
  | some ss =>
    rw [processSubject_eq_found h] at hc
    exact processAssign_created_sub tid g s subj ss.id ts c hc
  | none =>
    rw [processSubject_eq_new h] at hc
    have := processAssign_created_sub tid g s subj
      (createSectionSubject ts.db sid subj).1.id
      { ts with db := (createSectionSubject ts.db sid subj).2 } c hc
    exact this

theorem subjFold_created_sub (tid : Nat) (g s : String) (sid : Nat)
    (subjects : List String) :
    ∀ ts : TxState,
      ∀ c ∈ ((subjects.foldl (fun t j => processSubject tid g s sid j t) ts)).created,
        c ∈ ts.created ∨ (c.grade = g ∧ c.sec = s ∧ c.subject ∈ subjects) := by
  induction subjects with
  | nil => intro ts c hc; exact Or.inl hc
  | cons j rest ih =>
    intro ts c hc
    rw [List.foldl_cons] at hc
    rcases ih _ c hc with hin | ⟨h1, h2, h3⟩
    · rcases processSubject_created_sub tid g s sid j ts c hin with hin' | ⟨h1, h2, h3⟩
      · exact Or.inl hin'
      · exact Or.inr ⟨h1, h2, h3 ▸ List.mem_cons_self j rest⟩
    · exact Or.inr ⟨h1, h2, List.mem_cons_of_mem j h3⟩

theorem processKey_created_sub (schoolId tid : Nat) (ts : TxState)
    (kv : String × List String) :
    ∀ c ∈ (processKey schoolId tid ts kv).created,
      c ∈ ts.created ∨
        ((∃ g sn, parseKey kv.1 = some (g, sn) ∧ c.grade = g ∧ c.sec = sn ∧
            c.subject ∈ kv.2) ∧ Resolves ts.db schoolId kv) := by
  intro c hc
  cases hp : parseKey kv.1 with
  | none =>
    left
    have : processKey schoolId tid ts kv = { ts with errors := ts.errors ++
        ["Invalid key format: " ++ kv.1 ++ ". Expected format: \"Grade X-A\""] } := by
      simp [processKey, hp]
    rw [this] at hc
    exact hc
  | some gs =>
    obtain ⟨g, sn⟩ := gs
    cases hg : findGrade ts.db schoolId g with
    | none =>
      left
      have : processKey schoolId tid ts kv = { ts with errors := ts.errors ++
          ["Grade not found: " ++ g] } := by simp [processKey, hp, hg]
      rw [this] at hc
      exact hc
    | some gr =>
      cases hsec : findSection ts.db gr.id sn with
      | none =>
        left
        have : processKey schoolId tid ts kv = { ts with errors := ts.errors ++
            ["Section " ++ sn ++ " not found in " ++ g] } := by simp [processKey, hp, hg, hsec]
        rw [this] at hc
        exact hc
      | some sec =>
        have heq : processKey schoolId tid ts kv =
            kv.2.foldl (fun t j => processSubject tid g sn sec.id j t) ts := by
          simp [processKey, hp, hg, hsec]
        rw [heq] at hc
        rcases subjFold_created_sub tid g sn sec.id kv.2 ts c hc with hin | ⟨h1, h2, h3⟩
        · exact Or.inl hin
        · exact Or.inr ⟨⟨g, sn, rfl, h1, h2, h3⟩, ⟨g, sn, gr, sec, hp, hg, hsec⟩⟩

theorem keyFold_created_sub (schoolId tid : Nat) (keys : List (String × List String)) :
    ∀ ts : TxState,
      ∀ c ∈ ((keys.foldl (processKey schoolId tid) ts)).created,
        c ∈ ts.created ∨
          ∃ kv ∈ keys, (∃ g sn, parseKey kv.1 = some (g, sn) ∧ c.grade = g ∧
              c.sec = sn ∧ c.subject ∈ kv.2) ∧
            Resolves ((keys.foldl (processKey schoolId tid) ts)).db schoolId kv := by
  induction keys with
  | nil => intro ts c hc; exact Or.inl hc
  | cons k rest ih =>
    intro ts c hc
    rw [List.foldl_cons] at hc ⊢
    rcases ih _ c hc with hin | ⟨kv, hkv, hprops, hres⟩
    · rcases processKey_created_sub schoolId tid ts k c hin with hin' | ⟨hprops, hres⟩
      · exact Or.inl hin'
      · refine Or.inr ⟨k, List.mem_cons_self k rest, hprops, ?_⟩
        exact resolves_mono (dbLE_keyFold ..) (resolves_mono (dbLE_processKey ..) hres)
    · exact Or.inr ⟨kv, List.mem_cons_of_mem k hkv, hprops, hres⟩

/-! ## The class-tutor phase as a database function -/

/-- The database effect of the class-tutor phase (it depends only on the
incoming database, not on the accumulators). -/
def clsDb (schoolId tutorId : Nat) (cg cs : Option String) (db : DB) : DB :=
  match cg, cs with
  | some g, some s =>
    if g == "" || s == "" then db
    else
      match findGrade db schoolId g with
      | none => db
      | some gr =>
        match findSection db gr.id s with
        | none => db
        | some sec =>
          match sec.classTutorId with
          | some other =>
            if other ≠ tutorId then db else setClassTutor db sec.id (some tutorId)
          | none => setClassTutor db sec.id (some tutorId)
  | _, _ => db

theorem processClassTutor_db (schoolId tid : Nat) (cg cs : Option String) (ts : TxState) :
    (processClassTutor schoolId tid cg cs ts).1.db = clsDb schoolId tid cg cs ts.db := by
  unfold processClassTutor clsDb
  cases cg with
  | none => rfl
  | some g =>
    cases cs with
    | none => rfl
    | some sn =>
      by_cases hge : (g == "" || sn == "") = true
      · simp [hge]
      · simp only [hge, if_false]
        cases hg : findGrade ts.db schoolId g with
        | none => simp [hg]
        | some gr =>
          cases hsec : findSection ts.db gr.id sn with
          | none => simp [hg, hsec]
          | some sec =>
            cases hct : sec.classTutorId with
            | none => simp [hg, hsec, hct]
            | some other =>
              by_cases ho : other ≠ tid <;> simp [hg, hsec, hct, ho]

theorem processClassTutor_acc (schoolId tid : Nat) (cg cs : Option String) (ts : TxState) :
    (processClassTutor schoolId tid cg cs ts).1.created = ts.created ∧
    (processClassTutor schoolId tid cg cs ts).1.skipped = ts.skipped := by
  unfold processClassTutor
  split
  · split
    · exact ⟨rfl, rfl⟩
    · split
      · exact ⟨rfl, rfl⟩
      · split
        · exact ⟨rfl, rfl⟩
        · split
          · split
            · exact ⟨rfl, rfl⟩
            · exact ⟨rfl, rfl⟩
          · exact ⟨rfl, rfl⟩
  · exact ⟨rfl, rfl⟩

theorem setClassTutor_idem (db : DB) (sid : Nat) (t : Option Nat) :
    setClassTutor (setClassTutor db sid t) sid t = setClassTutor db sid t := by
  unfold setClassTutor
  simp only [List.map_map]
  have hf : ((fun s => if s.id == sid then { s with classTutorId := t } else s) ∘
      (fun s : Section => if s.id == sid then { s with classTutorId := t } else s)) =
      (fun s : Section => if s.id == sid then { s with classTutorId := t } else s) := by
    funext x
    simp only [Function.comp_apply]
    by_cases h : (x.id == sid) = true <;> simp [h]
  rw [hf]

theorem clsDb_grades (schoolId tid : Nat) (cg cs : Option String) (db : DB) :
    (clsDb schoolId tid cg cs db).grades = db.grades := by
  unfold clsDb
  split
  · split
    · rfl
    · split
      · rfl
      · split
        · rfl
        · split
          · split
            · rfl
            · rfl
          · rfl
  · rfl

theorem clsDb_tutors (schoolId tid : Nat) (cg cs : Option String) (db : DB) :
    (clsDb schoolId tid cg cs db).tutors = db.tutors := by
  unfold clsDb
  split
  · split
    · rfl
    · split
      · rfl
      · split
        · rfl
        · split
          · split
            · rfl
            · rfl
          · rfl
  · rfl

theorem clsDb_set_fixed (schoolId tid : Nat) {g sn : String} {db : DB} {gr : Grade}
    {sec : Section} (hge : ¬(g == "" || sn == "") = true)
    (hg : findGrade db schoolId g = some gr)
    (hsec : findSection db gr.id sn = some sec) :
    clsDb schoolId tid (some g) (some sn) (setClassTutor db sec.id (some tid)) =
      setClassTutor db sec.id (some tid) := by
  have hg' : findGrade (setClassTutor db sec.id (some tid)) schoolId g = some gr := hg
  have hsec' : findSection (setClassTutor db sec.id (some tid)) gr.id sn =
      some { sec with classTutorId := some tid } := by
    have hSections : (setClassTutor db sec.id (some tid)).sections =
        db.sections.map
          (fun s => if s.id == sec.id then { s with classTutorId := some tid } else s) := rfl
    unfold findSection
    rw [hSections, find?_map_pred _ _
      (fun a => by by_cases hid : (a.id == sec.id) = true <;> simp [hid])]
    unfold findSection at hsec
    rw [hsec]
    simp
  simp [clsDb, hge, hg', hsec', setClassTutor_idem]

theorem clsDb_idem (schoolId tid : Nat) (cg cs : Option String) (db : DB) :
    clsDb schoolId tid cg cs (clsDb schoolId tid cg cs db) = clsDb schoolId tid cg cs db := by
  cases cg with
  | none => rfl
  | some g =>
    cases cs with
    | none => rfl
    | some sn =>
      by_cases hge : (g == "" || sn == "") = true
      · simp [clsDb, hge]
      · cases hg : findGrade db schoolId g with
        | none =>
          have h1 : clsDb schoolId tid (some g) (some sn) db = db := by
            simp [clsDb, hge, hg]
          rw [h1, h1]
        | some gr =>
          cases hsec : findSection db gr.id sn with
          | none =>
            have h1 : clsDb schoolId tid (some g) (some sn) db = db := by
              simp [clsDb, hge, hg, hsec]
            rw [h1, h1]
          | some sec =>
            cases hct : sec.classTutorId with
            | none =>
              have h1 : clsDb schoolId tid (some g) (some sn) db =
                  setClassTutor db sec.id (some tid) := by
                simp [clsDb, hge, hg, hsec, hct]
              rw [h1]
              exact clsDb_set_fixed schoolId tid hge hg hsec
            | some other =>
              by_cases ho : other = tid
              · have h1 : clsDb schoolId tid (some g) (some sn) db =
                    setClassTutor db sec.id (some tid) := by
                  simp [clsDb, hge, hg, hsec, hct, ho]
                rw [h1]
                exact clsDb_set_fixed schoolId tid hge hg hsec
              · have h1 : clsDb schoolId tid (some g) (some sn) db = db := by
                  simp [clsDb, hge, hg, hsec, hct, ho]
                rw [h1, h1]

/-! ## Claim C1: idempotence of `smartAssignTutor` -/

/-- C1. `smartAssignTutor` is idempotent for already-active assignments:
invoking it twice in succession with the same request leaves the database
unchanged after the second call, and the second call's `skippedAssignments`
contains every item (same grade, section and subject) that appeared in the
first call's `createdAssignments`. -/
theorem smartAssignTutor_idempotent (schoolId : Nat) (req : SmartAssignReq) (db : DB) :
    (smartAssignTutor schoolId req (smartAssignTutor schoolId req db).2).2 =
      (smartAssignTutor schoolId req db).2 ∧
    ∀ c ∈ (smartAssignTutor schoolId req db).1.created,
      ∃ k ∈ (smartAssignTutor schoolId req (smartAssignTutor schoolId req db).2).1.skipped,
        k.grade = c.grade ∧ k.sec = c.sec ∧ k.subject = c.subject := by
  cases htut : db.tutors.find? (fun t => t.id == req.tutorId && t.schoolId == schoolId) with
  | none =>
    have h1 : smartAssignTutor schoolId req db = (⟨404, [], [], none, []⟩, db) := by
      unfold smartAssignTutor
      rw [htut]
    rw [h1]
    refine ⟨?_, ?_⟩
    · show (smartAssignTutor schoolId req db).2 = db
      rw [h1]
    · intro c hc
      cases hc
  | some t =>
    set tid := req.tutorId with htid
    set keys := req.assignments with hkeys
    set cg := req.classGrade with hcg
    set cs := req.classSection with hcs
    set ts1 := keys.foldl (processKey schoolId tid) (⟨db, [], [], []⟩ : TxState) with hts1
    set pc1 := processClassTutor schoolId tid cg cs ts1 with hpc1
    set db1 := clsDb schoolId tid cg cs ts1.db with hdb1
    have hpc1db : pc1.1.db = db1 := processClassTutor_db schoolId tid cg cs ts1
    have hcall1 : smartAssignTutor schoolId req db =
        (⟨201, pc1.1.created, pc1.1.skipped, pc1.2, pc1.1.errors⟩, pc1.1.db) := by
      unfold smartAssignTutor
      rw [htut]
      rfl
    have htutors1 : db1.tutors = db.tutors := by
      rw [hdb1, clsDb_tutors]
      exact (keyFold_frame schoolId tid keys ⟨db, [], [], []⟩).2.2
    have htut2 : db1.tutors.find?
        (fun t => t.id == tid && t.schoolId == schoolId) = some t := by
      rw [htutors1]
      exact htut
    have hLE : dbLE ts1.db db1 := by
      have h := dbLE_processClassTutor schoolId tid cg cs ts1
      rwa [processClassTutor_db schoolId tid cg cs ts1] at h
    have hsettled : ∀ kv ∈ keys, Settled db1 schoolId tid kv := fun kv hkv =>
      settled_mono hLE (keyFold_settles schoolId tid keys ⟨db, [], [], []⟩ kv hkv)
    set ts2 := keys.foldl (processKey schoolId tid) (⟨db1, [], [], []⟩ : TxState) with hts2
    have hts2eq : ts2 = (⟨db1, [],
        [] ++ (keys.map (fun kv => (keyOutcome db1 schoolId kv).1)).flatten,
        [] ++ (keys.map (fun kv => (keyOutcome db1 schoolId kv).2)).flatten⟩ : TxState) := by
      rw [hts2]
      exact keyFold_noop schoolId tid keys ⟨db1, [], [], []⟩ hsettled
    set pc2 := processClassTutor schoolId tid cg cs ts2 with hpc2
    have hcall2 : smartAssignTutor schoolId req db1 =
        (⟨201, pc2.1.created, pc2.1.skipped, pc2.2, pc2.1.errors⟩, pc2.1.db) := by
      unfold smartAssignTutor
      rw [htut2]
      rfl
    have hdb2 : pc2.1.db = db1 := by
      rw [processClassTutor_db schoolId tid cg cs ts2]
      have hts2db : ts2.db = db1 := by rw [hts2eq]
      rw [hts2db, hdb1, clsDb_idem]
    rw [hcall1, hpc1db]
    refine ⟨?_, ?_⟩
    · show (smartAssignTutor schoolId req db1).2 = db1
      rw [hcall2]
      exact hdb2
    · intro c hc
      have hcr : pc1.1.created = ts1.created :=
        (processClassTutor_acc schoolId tid cg cs ts1).1
    -- membership in the first call's created list
      rw [show ((⟨201, pc1.1.created, pc1.1.skipped, pc1.2, pc1.1.errors⟩ :
          SmartResult)).created = pc1.1.created from rfl, hcr] at hc
      rcases keyFold_created_sub schoolId tid keys ⟨db, [], [], []⟩ c hc with
        h0 | ⟨kv, hkv, ⟨g, sn, hp, hg, hsn, hsub⟩, hres⟩
      · cases h0
      · have hres1 : Resolves db1 schoolId kv := resolves_mono hLE hres
        obtain ⟨g', sn', gr, sec, hp', hgr, hsec⟩ := hres1
        rw [hp] at hp'
        injection hp' with hp'
        injection hp' with hpg hpsn
        subst hpg
        subst hpsn
        have hsk : pc2.1.skipped =
            (keys.map fun kv => (keyOutcome db1 schoolId kv).1).flatten := by
          rw [(processClassTutor_acc schoolId tid cg cs ts2).2, hts2eq]
          simp
        rw [hcall2]
        refine ⟨⟨c.grade, c.sec, c.subject, "Already assigned"⟩, ?_, rfl, rfl, rfl⟩
        show _ ∈ pc2.1.skipped
        rw [hsk]
        apply List.mem_flatten.2
        refine ⟨(keyOutcome db1 schoolId kv).1, List.mem_map_of_mem _ hkv, ?_⟩
        have hout : (keyOutcome db1 schoolId kv).1 =
            kv.2.map (fun j => (⟨g, sn, j, "Already assigned"⟩ : SkipItem)) := by
          simp [keyOutcome, hp, hgr, hsec]
        rw [hout, hg, hsn]
        exact List.mem_map_of_mem _ hsub

/-! ## Claim C2: class-tutor assignment never overwrites a different tutor -/

/-- C2. When `smartAssignTutor` is called with `classGrade`/`classSection`
resolving to a section: if the section's `classTutorId` is already set to a
different tutor the call records an error and leaves the sections table
unchanged; otherwise it sets `classTutorId` to the given tutor. -/
theorem smartAssignTutor_classTutor_spec (schoolId : Nat) (req : SmartAssignReq)
    (db : DB) {t : Tutor}
    (htut : db.tutors.find?
      (fun t => t.id == req.tutorId && t.schoolId == schoolId) = some t)
    {cg cs : String} (hcg : req.classGrade = some cg) (hcs : req.classSection = some cs)
    (hcg0 : (cg == "") = false) (hcs0 : (cs == "") = false)
    {gr : Grade} (hg : findGrade db schoolId cg = some gr)
    {sec : Section} (hs : findSection db gr.id cs = some sec) :
    (∀ other, sec.classTutorId = some other → other ≠ req.tutorId →
      (smartAssignTutor schoolId req db).2.sections = db.sections ∧
      ("Section " ++ cg ++ "-" ++ cs ++ " already has " ++ classTutorName db other ++
        " as class tutor") ∈ (smartAssignTutor schoolId req db).1.errors) ∧
    ((sec.classTutorId = none ∨ sec.classTutorId = some req.tutorId) →
      (smartAssignTutor schoolId req db).2.sections =
        db.sections.map (fun x =>
          if x.id == sec.id then { x with classTutorId := some req.tutorId } else x)) := by
  set tid := req.tutorId with htid
  set keys := req.assignments with hkeys
  set ts1 := keys.foldl (processKey schoolId tid) (⟨db, [], [], []⟩ : TxState) with hts1
  set pc1 := processClassTutor schoolId tid req.classGrade req.classSection ts1 with hpc1
  have hcall1 : smartAssignTutor schoolId req db =
      (⟨201, pc1.1.created, pc1.1.skipped, pc1.2, pc1.1.errors⟩, pc1.1.db) := by
    unfold smartAssignTutor
    rw [htut]
    rfl
  have hframe := keyFold_frame schoolId tid keys ⟨db, [], [], []⟩
  have hg1 : findGrade ts1.db schoolId cg = some gr := by
    unfold findGrade at hg ⊢
    rw [hframe.1]
    exact hg
  have hs1 : findSection ts1.db gr.id cs = some sec := by
    unfold findSection at hs ⊢
    rw [hframe.2.1]
    exact hs
  have hguard : (cg == "" || cs == "") = false := by
    rw [hcg0, hcs0]
    rfl
  constructor
  · intro other hct hne
    have hpc : pc1 = ({ ts1 with errors := ts1.errors ++
        ["Section " ++ cg ++ "-" ++ cs ++ " already has " ++
          classTutorName ts1.db other ++ " as class tutor"] }, none) := by
      rw [hpc1, hcg, hcs]
      simp [processClassTutor, hguard, hg1, hs1, hct, hne]
    have htn : classTutorName ts1.db other = classTutorName db other := by
      unfold classTutorName
      rw [hframe.2.2]
    constructor
    · rw [hcall1]
      show pc1.1.db.sections = db.sections
      rw [hpc, ← hframe.2.1]
    · rw [hcall1]
      show _ ∈ pc1.1.errors
      rw [hpc]
      show _ ∈ ts1.errors ++ [_]
      rw [htn]
      exact List.mem_append_right _ (List.mem_singleton.2 rfl)
  · intro hct
    have hpc : pc1.1.db = setClassTutor ts1.db sec.id (some tid) := by
      rw [hpc1, hcg, hcs]
      rcases hct with hct | hct <;>
        simp [processClassTutor, hguard, hg1, hs1, hct]
    rw [hcall1]
    show pc1.1.db.sections = _
    rw [hpc]
    show (setClassTutor ts1.db sec.id (some tid)).sections = _
    unfold setClassTutor
    rw [hframe.2.1]

/-! ## Claim C3: the per-subject duplicate check -/

theorem findAssignment_activate {db : DB} {tid ssid : Nat} {a : TutorSubjectAssignment}
    (ha : findAssignment db tid ssid = some a) :
    findAssignment (activateAssignment db a.id) tid ssid = some { a with isActive := true } := by
  have hasg : (activateAssignment db a.id).assignments =
      db.assignments.map (fun x => if x.id == a.id then { x with isActive := true } else x) :=
    rfl
  unfold findAssignment at ha ⊢
  rw [hasg, find?_map_pred _ _
    (fun x => by by_cases hid : (x.id == a.id) = true <;> simp [hid]), ha]
  simp

theorem findAssignment_created {db : DB} {tid ssid : Nat}
    (h : findAssignment db tid ssid = none) :
    findAssignment (createAssignment db tid ssid).2 tid ssid =
      some ⟨db.nextId, tid, ssid, true⟩ := by
  have hasg : (createAssignment db tid ssid).2.assignments =
      db.assignments ++ [⟨db.nextId, tid, ssid, true⟩] := rfl
  unfold findAssignment at h ⊢
  rw [hasg, List.find?_append, h]
  simp

/-- C3. For each subject name processed under a resolved section,
`smartAssignTutor`'s loop body (`processSubject`): finds the active
`SectionSubject` or creates it (appending one fresh row, never when one is
already there); then, for the assignment row of `(tutorId, sectionSubject)`:
when it exists and is active the item is skipped as a duplicate and nothing
changes; when it exists inactive it is reactivated in place (same row id, no
new row) and reported as created with the `reactivated` flag; when absent a
fresh active assignment row is appended. -/
theorem processSubject_spec (tid : Nat) (g s : String) (sid : Nat) (subj : String)
    (ts : TxState) :
    (∀ ss, findActiveSS ts.db sid subj = some ss →
      (processSubject tid g s sid subj ts).db.sectionSubjects = ts.db.sectionSubjects ∧
      ((∀ a, findAssignment ts.db tid ss.id = some a →
          (a.isActive = true →
            processSubject tid g s sid subj ts =
              { ts with skipped := ts.skipped ++ [⟨g, s, subj, "Already assigned"⟩] }) ∧
          (a.isActive = false →
            (∃ a', findAssignment (processSubject tid g s sid subj ts).db tid ss.id =
                some a' ∧ a'.id = a.id ∧ a'.isActive = true) ∧
            (processSubject tid g s sid subj ts).db.assignments.length =
              ts.db.assignments.length ∧
            (processSubject tid g s sid subj ts).created =
              ts.created ++ [⟨a.id, g, s, subj, true⟩])) ∧
        (findAssignment ts.db tid ss.id = none →
          (∃ a', findAssignment (processSubject tid g s sid subj ts).db tid ss.id =
              some a' ∧ a'.id = ts.db.nextId ∧ a'.isActive = true) ∧
          (processSubject tid g s sid subj ts).db.assignments =
            ts.db.assignments ++ [⟨ts.db.nextId, tid, ss.id, true⟩] ∧
          (processSubject tid g s sid subj ts).created =
            ts.created ++ [⟨ts.db.nextId, g, s, subj, false⟩]))) ∧
    (findActiveSS ts.db sid subj = none →
      (processSubject tid g s sid subj ts).db.sectionSubjects =
        ts.db.sectionSubjects ++ [⟨ts.db.nextId, sid, subj, true⟩] ∧
      ActivePair (processSubject tid g s sid subj ts).db tid sid subj) := by
  constructor
  · intro ss hss
    rw [processSubject_eq_found hss]
    refine ⟨processAssign_ss_unchanged tid g s subj ss.id ts, ?_, ?_⟩
    · intro a ha
      constructor
      · intro hact
        exact processAssign_eq_skip ha hact
      · intro hact
        rw [processAssign_eq_react ha hact]
        exact ⟨⟨{ a with isActive := true }, findAssignment_activate ha, rfl, rfl⟩,
          by simp [activateAssignment], rfl⟩
    · intro ha
      rw [processAssign_eq_create ha]
      exact ⟨⟨⟨ts.db.nextId, tid, ss.id, true⟩, findAssignment_created ha, rfl, rfl⟩,
        rfl, rfl⟩
  · intro hss
    refine ⟨?_, processSubject_establishes tid g s sid subj ts⟩
    rw [processSubject_eq_new hss, processAssign_ss_unchanged]
    rfl

/-! ## Accumulator composition: the transaction accumulators only grow,
and the database evolution does not depend on them -/

theorem processAssign_acc (tid : Nat) (g s subj : String) (ssid : Nat) (ts : TxState) :
    processAssign tid g s subj ssid ts =
      ⟨(processAssign tid g s subj ssid ⟨ts.db, [], [], []⟩).db,
       ts.created ++ (processAssign tid g s subj ssid ⟨ts.db, [], [], []⟩).created,
       ts.skipped ++ (processAssign tid g s subj ssid ⟨ts.db, [], [], []⟩).skipped,
       ts.errors ++ (processAssign tid g s subj ssid ⟨ts.db, [], [], []⟩).errors⟩ := by
  obtain ⟨db, c, sk, e⟩ := ts
  cases h : findAssignment db tid ssid with
  | none =>
    rw [@processAssign_eq_create ⟨db, c, sk, e⟩ _ _ _ _ _ h,
      @processAssign_eq_create ⟨db, [], [], []⟩ _ _ _ _ _ h]
    simp
  | some ex =>
    cases hact : ex.isActive with
    | true =>
      rw [@processAssign_eq_skip ⟨db, c, sk, e⟩ _ _ _ _ _ _ h hact,
        @processAssign_eq_skip ⟨db, [], [], []⟩ _ _ _ _ _ _ h hact]
      simp
    | false =>
      rw [@processAssign_eq_react ⟨db, c, sk, e⟩ _ _ _ _ _ _ h hact,
        @processAssign_eq_react ⟨db, [], [], []⟩ _ _ _ _ _ _ h hact]
      simp

theorem processSubject_acc (tid : Nat) (g s : String) (sid : Nat) (subj : String)
    (ts : TxState) :
    processSubject tid g s sid subj ts =
      ⟨(processSubject tid g s sid subj ⟨ts.db, [], [], []⟩).db,
       ts.created ++ (processSubject tid g s sid subj ⟨ts.db, [], [], []⟩).created,
       ts.skipped ++ (processSubject tid g s sid subj ⟨ts.db, [], [], []⟩).skipped,
       ts.errors ++ (processSubject tid g s sid subj ⟨ts.db, [], [], []⟩).errors⟩ := by
  cases h : findActiveSS ts.db sid subj with
  | some ss =>
    rw [@processSubject_eq_found ts _ _ _ _ _ _ h,
      @processSubject_eq_found ⟨ts.db, [], [], []⟩ _ _ _ _ _ _ h]
    exact processAssign_acc ..
  | none =>
    rw [@processSubject_eq_new ts _ _ _ _ _ h,
      @processSubject_eq_new ⟨ts.db, [], [], []⟩ _ _ _ _ _ h]
    have h1 := processAssign_acc tid g s subj (createSectionSubject ts.db sid subj).1.id
      { ts with db := (createSectionSubject ts.db sid subj).2 }
    rw [h1]

theorem subjFold_acc (tid : Nat) (g s : String) (sid : Nat) :
    ∀ (subjects : List String) (ts : TxState),
      subjects.foldl (fun t j => processSubject tid g s sid j t) ts =
        ⟨((subjects.foldl (fun t j => processSubject tid g s sid j t)
            ⟨ts.db, [], [], []⟩)).db,
         ts.created ++ ((subjects.foldl (fun t j => processSubject tid g s sid j t)
            ⟨ts.db, [], [], []⟩)).created,
         ts.skipped ++ ((subjects.foldl (fun t j => processSubject tid g s sid j t)
            ⟨ts.db, [], [], []⟩)).skipped,
         ts.errors ++ ((subjects.foldl (fun t j => processSubject tid g s sid j t)
            ⟨ts.db, [], [], []⟩)).errors⟩ := by
  intro subjects
  induction subjects with
  | nil => intro ts; simp
  | cons j rest ih =>
    intro ts
    rw [List.foldl_cons, List.foldl_cons, ih (processSubject tid g s sid j ts),
      ih (processSubject tid g s sid j ⟨ts.db, [], [], []⟩),
      processSubject_acc tid g s sid j ts]
    simp

theorem processKey_acc (schoolId tid : Nat) (kv : String × List String) (ts : TxState) :
    processKey schoolId tid ts kv =
      ⟨(processKey schoolId tid ⟨ts.db, [], [], []⟩ kv).db,
       ts.created ++ (processKey schoolId tid ⟨ts.db, [], [], []⟩ kv).created,
       ts.skipped ++ (processKey schoolId tid ⟨ts.db, [], [], []⟩ kv).skipped,
       ts.errors ++ (processKey schoolId tid ⟨ts.db, [], [], []⟩ kv).errors⟩ := by
  cases hp : parseKey kv.1 with
  | none => simp [processKey, hp]
  | some gs =>
    obtain ⟨g, sn⟩ := gs
    cases hg : findGrade ts.db schoolId g with
    | none => simp [processKey, hp, hg]
    | some gr =>
      cases hsec : findSection ts.db gr.id sn with
      | none => simp [processKey, hp, hg, hsec]
      | some sec =>
        have h1 : processKey schoolId tid ts kv =
            kv.2.foldl (fun t j => processSubject tid g sn sec.id j t) ts := by
          simp [processKey, hp, hg, hsec]
        have h2 : processKey schoolId tid ⟨ts.db, [], [], []⟩ kv =
            kv.2.foldl (fun t j => processSubject tid g sn sec.id j t)
              ⟨ts.db, [], [], []⟩ := by
          simp [processKey, hp, hg, hsec]
        rw [h1, h2]
        exact subjFold_acc tid g sn sec.id kv.2 ts

theorem keyFold_acc (schoolId tid : Nat) :
    ∀ (keys : List (String × List String)) (ts : TxState),
      keys.foldl (processKey schoolId tid) ts =
        ⟨((keys.foldl (processKey schoolId tid) ⟨ts.db, [], [], []⟩)).db,
         ts.created ++ ((keys.foldl (processKey schoolId tid) ⟨ts.db, [], [], []⟩)).created,
         ts.skipped ++ ((keys.foldl (processKey schoolId tid) ⟨ts.db, [], [], []⟩)).skipped,
         ts.errors ++ ((keys.foldl (processKey schoolId tid) ⟨ts.db, [], [], []⟩)).errors⟩ := by
  intro keys
  induction keys with
  | nil => intro ts; simp
  | cons k rest ih =>
    intro ts
    rw [List.foldl_cons, List.foldl_cons, ih (processKey schoolId tid ts k),
      ih (processKey schoolId tid ⟨ts.db, [], [], []⟩ k),
      processKey_acc schoolId tid k ts]
    simp

/-! ## Claim C7: malformed keys produce per-key errors and never abort the batch -/

theorem processKey_bad (schoolId tid : Nat) {kv : String × List String}
    (hp : parseKey kv.1 = none) (ts : TxState) :
    processKey schoolId tid ts kv = { ts with errors := ts.errors ++
      ["Invalid key format: " ++ kv.1 ++ ". Expected format: \"Grade X-A\""] } := by
  simp [processKey, hp]

/-- The error entries contributed by the class-tutor phase (they depend
only on the database it runs on). -/
def clsErrs (schoolId tutorId : Nat) (cg cs : Option String) (db : DB) : List String :=
  match cg, cs with
  | some g, some s =>
    if g == "" || s == "" then []
    else
      match findGrade db schoolId g with
      | none => ["Grade " ++ g ++ " not found for class tutor assignment"]
      | some gr =>
        match findSection db gr.id s with
        | none => ["Section " ++ s ++ " not found in " ++ g ++ " for class tutor assignment"]
        | some sec =>
          match sec.classTutorId with
          | some other =>
            if other ≠ tutorId then
              ["Section " ++ g ++ "-" ++ s ++ " already has " ++
                classTutorName db other ++ " as class tutor"]
            else []
          | none => []
  | _, _ => []

theorem processClassTutor_errors (schoolId tid : Nat) (cg cs : Option String)
    (ts : TxState) :
    (processClassTutor schoolId tid cg cs ts).1.errors =
      ts.errors ++ clsErrs schoolId tid cg cs ts.db := by
  cases cg with
  | none => simp [processClassTutor, clsErrs]
  | some g =>
    cases cs with
    | none => simp [processClassTutor, clsErrs]
    | some sn =>
      by_cases hge : (g == "" || sn == "") = true
      · simp [processClassTutor, clsErrs, hge]
      · cases hg : findGrade ts.db schoolId g with
        | none => simp [processClassTutor, clsErrs, hge, hg]
        | some gr =>
          cases hsec : findSection ts.db gr.id sn with
          | none => simp [processClassTutor, clsErrs, hge, hg, hsec]
          | some sec =>
            cases hct : sec.classTutorId with
            | none => simp [processClassTutor, clsErrs, hge, hg, hsec, hct]
            | some other =>
              by_cases ho : other ≠ tid <;>
                simp [processClassTutor, clsErrs, hge, hg, hsec, hct, ho]

/-- C7. A map key that does not match `^(.+)-([A-Z])$` only contributes a
per-key error: the call still succeeds (201), the database, the created
list and the skipped list are exactly what they would have been without
the malformed key, and the errors array contains the per-key message. -/
theorem smartAssignTutor_malformed_key (schoolId : Nat) (db : DB) (tid : Nat)
    (ks1 ks2 : List (String × List String)) (bad : String × List String)
    (cg cs : Option String) (hbad : parseKey bad.1 = none) {t : Tutor}
    (htut : db.tutors.find? (fun x => x.id == tid && x.schoolId == schoolId) = some t) :
    (smartAssignTutor schoolId ⟨tid, ks1 ++ bad :: ks2, cg, cs⟩ db).2 =
      (smartAssignTutor schoolId ⟨tid, ks1 ++ ks2, cg, cs⟩ db).2 ∧
    (smartAssignTutor schoolId ⟨tid, ks1 ++ bad :: ks2, cg, cs⟩ db).1.created =
      (smartAssignTutor schoolId ⟨tid, ks1 ++ ks2, cg, cs⟩ db).1.created ∧
    (smartAssignTutor schoolId ⟨tid, ks1 ++ bad :: ks2, cg, cs⟩ db).1.skipped =
      (smartAssignTutor schoolId ⟨tid, ks1 ++ ks2, cg, cs⟩ db).1.skipped ∧
    (smartAssignTutor schoolId ⟨tid, ks1 ++ bad :: ks2, cg, cs⟩ db).1.status = 201 ∧
    ("Invalid key format: " ++ bad.1 ++ ". Expected format: \"Grade X-A\"") ∈
      (smartAssignTutor schoolId ⟨tid, ks1 ++ bad :: ks2, cg, cs⟩ db).1.errors := by
  set ts1 := ks1.foldl (processKey schoolId tid) (⟨db, [], [], []⟩ : TxState) with hts1
  set R := ks2.foldl (processKey schoolId tid) (⟨ts1.db, [], [], []⟩ : TxState) with hR
  set msg := "Invalid key format: " ++ bad.1 ++ ". Expected format: \"Grade X-A\""
    with hmsg
  have htsF : (ks1 ++ bad :: ks2).foldl (processKey schoolId tid)
      (⟨db, [], [], []⟩ : TxState) =
      ⟨R.db, ts1.created ++ R.created, ts1.skipped ++ R.skipped,
        (ts1.errors ++ [msg]) ++ R.errors⟩ := by
    rw [List.foldl_append, List.foldl_cons, ← hts1, processKey_bad schoolId tid hbad,
      keyFold_acc schoolId tid ks2 { ts1 with errors := ts1.errors ++ [msg] }]
  have htsW : (ks1 ++ ks2).foldl (processKey schoolId tid) (⟨db, [], [], []⟩ : TxState) =
      ⟨R.db, ts1.created ++ R.created, ts1.skipped ++ R.skipped,
        ts1.errors ++ R.errors⟩ := by
    rw [List.foldl_append, ← hts1, keyFold_acc schoolId tid ks2 ts1]
  have hcallF : smartAssignTutor schoolId ⟨tid, ks1 ++ bad :: ks2, cg, cs⟩ db =
      (⟨201,
        (processClassTutor schoolId tid cg cs
          ((ks1 ++ bad :: ks2).foldl (processKey schoolId tid) ⟨db, [], [], []⟩)).1.created,
        (processClassTutor schoolId tid cg cs
          ((ks1 ++ bad :: ks2).foldl (processKey schoolId tid) ⟨db, [], [], []⟩)).1.skipped,
        (processClassTutor schoolId tid cg cs
          ((ks1 ++ bad :: ks2).foldl (processKey schoolId tid) ⟨db, [], [], []⟩)).2,
        (processClassTutor schoolId tid cg cs
          ((ks1 ++ bad :: ks2).foldl (processKey schoolId tid) ⟨db, [], [], []⟩)).1.errors⟩,
       (processClassTutor schoolId tid cg cs
          ((ks1 ++ bad :: ks2).foldl (processKey schoolId tid) ⟨db, [], [], []⟩)).1.db) := by
    unfold smartAssignTutor
    rw [htut]
    rfl
  have hcallW : smartAssignTutor schoolId ⟨tid, ks1 ++ ks2, cg, cs⟩ db =
      (⟨201,
        (processClassTutor schoolId tid cg cs
          ((ks1 ++ ks2).foldl (processKey schoolId tid) ⟨db, [], [], []⟩)).1.created,
        (processClassTutor schoolId tid cg cs
          ((ks1 ++ ks2).foldl (processKey schoolId tid) ⟨db, [], [], []⟩)).1.skipped,
        (processClassTutor schoolId tid cg cs
          ((ks1 ++ ks2).foldl (processKey schoolId tid) ⟨db, [], [], []⟩)).2,
        (processClassTutor schoolId tid cg cs
          ((ks1 ++ ks2).foldl (processKey schoolId tid) ⟨db, [], [], []⟩)).1.errors⟩,
       (processClassTutor schoolId tid cg cs
          ((ks1 ++ ks2).foldl (processKey schoolId tid) ⟨db, [], [], []⟩)).1.db) := by
    unfold smartAssignTutor
    rw [htut]
    rfl
  rw [hcallF, hcallW, htsF, htsW]
  refine ⟨?_, ?_, ?_, rfl, ?_⟩
  · rw [processClassTutor_db, processClassTutor_db]
  · rw [(processClassTutor_acc schoolId tid cg cs _).1,
      (processClassTutor_acc schoolId tid cg cs _).1]
  · rw [(processClassTutor_acc schoolId tid cg cs _).2,
      (processClassTutor_acc schoolId tid cg cs _).2]
  · rw [processClassTutor_errors]
    apply List.mem_append_left
    show msg ∈ (ts1.errors ++ [msg]) ++ R.errors
    apply List.mem_append_left
    exact List.mem_append_right _ (List.mem_singleton.2 rfl)

/-! ## Claim C9: `updateTutorAssignments` is delete-then-reassign, not atomic -/

theorem keyFold_all_bad (schoolId tid : Nat) :
    ∀ (keys : List (String × List String)), (∀ kv ∈ keys, parseKey kv.1 = none) →
      ∀ ts : TxState, keys.foldl (processKey schoolId tid) ts =
        { ts with errors := ts.errors ++ keys.map (fun kv =>
            "Invalid key format: " ++ kv.1 ++ ". Expected format: \"Grade X-A\"") } := by
  intro keys
  induction keys with
  | nil => intro _ ts; simp
  | cons k rest ih =>
    intro h ts
    rw [List.foldl_cons, processKey_bad schoolId tid (h k (List.mem_cons_self k rest)),
      ih (fun kv hm => h kv (List.mem_cons_of_mem k hm))]
    simp

/-- C9. `updateTutorAssignments` deletes all of the tutor's assignments and
clears its class-tutor sections in a first transaction, and only then
re-invokes `smartAssignTutor`.  When the re-assignment step fails on every
item (here: every key malformed, no class-tutor request), the call still
reports one error per key while the tutor's previous assignments are gone
and are not restored: the replace-all operation is not atomic as a whole. -/
theorem updateTutorAssignments_not_atomic (schoolId : Nat) (req : SmartAssignReq)
    (db : DB) {t : Tutor}
    (htut : db.tutors.find?
      (fun x => x.id == req.tutorId && x.schoolId == schoolId) = some t)
    (hbad : ∀ kv ∈ req.assignments, parseKey kv.1 = none)
    (hcg : req.classGrade = none) :
    updateTutorAssignments schoolId req db =
      smartAssignTutor schoolId req (clearTutorAssignments req.tutorId db) ∧
    (updateTutorAssignments schoolId req db).1.errors.length =
      req.assignments.length ∧
    (∀ a ∈ (updateTutorAssignments schoolId req db).2.assignments,
      a.tutorId ≠ req.tutorId) ∧
    (∀ a ∈ db.assignments, a.tutorId = req.tutorId →
      a ∉ (updateTutorAssignments schoolId req db).2.assignments) ∧
    (∀ s ∈ (updateTutorAssignments schoolId req db).2.sections,
      s.classTutorId ≠ some req.tutorId) := by
  have hstep : updateTutorAssignments schoolId req db =
      smartAssignTutor schoolId req (clearTutorAssignments req.tutorId db) := by
    unfold updateTutorAssignments
    rw [htut]
  have htutc : (clearTutorAssignments req.tutorId db).tutors.find?
      (fun x => x.id == req.tutorId && x.schoolId == schoolId) = some t := htut
  set dbc := clearTutorAssignments req.tutorId db with hdbc
  set tsc := req.assignments.foldl (processKey schoolId req.tutorId)
    (⟨dbc, [], [], []⟩ : TxState) with htsc
  set pc := processClassTutor schoolId req.tutorId req.classGrade req.classSection tsc
    with hpc
  have hcall : smartAssignTutor schoolId req dbc =
      (⟨201, pc.1.created, pc.1.skipped, pc.2, pc.1.errors⟩, pc.1.db) := by
    unfold smartAssignTutor
    rw [htutc]
    rfl
  have htsc2 : tsc = (⟨dbc, [], [],
      [] ++ req.assignments.map (fun kv =>
        "Invalid key format: " ++ kv.1 ++ ". Expected format: \"Grade X-A\"")⟩ :
      TxState) := by
    rw [htsc]
    exact keyFold_all_bad schoolId req.tutorId req.assignments hbad ⟨dbc, [], [], []⟩
  have hpc2 : pc = (tsc, none) := by
    rw [hpc, hcg]
    rfl
  refine ⟨hstep, ?_, ?_, ?_, ?_⟩
  · rw [hstep, hcall]
    show pc.1.errors.length = _
    rw [hpc2, htsc2]
    simp
  · intro a ha
    rw [hstep, hcall] at ha
    have ha2 : a ∈ pc.1.db.assignments := ha
    rw [hpc2, htsc2] at ha2
    have := List.of_mem_filter
      (p := fun a : TutorSubjectAssignment => !(a.tutorId == req.tutorId)) ha2
    simpa using this
  · intro a _ hat hmem
    rw [hstep, hcall] at hmem
    have hm2 : a ∈ pc.1.db.assignments := hmem
    rw [hpc2, htsc2] at hm2
    have := List.of_mem_filter
      (p := fun a : TutorSubjectAssignment => !(a.tutorId == req.tutorId)) hm2
    simp [hat] at this
  · intro sc hsc
    rw [hstep, hcall] at hsc
    have hs2 : sc ∈ pc.1.db.sections := hsc
    rw [hpc2, htsc2] at hs2
    have hmem : sc ∈ db.sections.map (fun x =>
        if x.classTutorId == some req.tutorId then { x with classTutorId := none }
        else x) := hs2
    obtain ⟨x, _, rfl⟩ := List.mem_map.1 hmem
    by_cases hx : (x.classTutorId == some req.tutorId) = true
    · simp [hx]
    · simp only [hx, if_false]
      simpa using hx

/-! ## Claim C10: at most one assignment row per (tutor, section subject) -/

theorem asgUnique_activate {db : DB} (h : AsgUnique db) (aid : Nat) :
    AsgUnique (activateAssignment db aid) := by
  unfold AsgUnique at h ⊢
  show List.Pairwise _ (db.assignments.map fun a =>
    if a.id == aid then { a with isActive := true } else a)
  rw [List.pairwise_map]
  refine h.imp ?_
  intro a b hab
  by_cases ha : (a.id == aid) = true <;> by_cases hb : (b.id == aid) = true <;>
    simp [ha, hb] <;> exact fun h1 h2 => hab ⟨h1, h2⟩

theorem asgUnique_create {db : DB} {tid ssid : Nat} (h : AsgUnique db)
    (hnone : findAssignment db tid ssid = none) :
    AsgUnique (createAssignment db tid ssid).2 := by
  unfold AsgUnique at h ⊢
  have hrows : (createAssignment db tid ssid).2.assignments =
      db.assignments ++ [⟨db.nextId, tid, ssid, true⟩] := rfl
  rw [hrows, List.pairwise_append]
  refine ⟨h, List.pairwise_singleton _ _, ?_⟩
  intro a ha b hb
  rw [List.mem_singleton.1 hb]
  unfold findAssignment at hnone
  have := List.find?_eq_none.1 hnone a ha
  intro hcon
  apply this
  simp [hcon.1, hcon.2]

theorem asgUnique_processAssign {ts : TxState} (h : AsgUnique ts.db)
    (tid : Nat) (g s subj : String) (ssid : Nat) :
    AsgUnique (processAssign tid g s subj ssid ts).db := by
  cases hf : findAssignment ts.db tid ssid with
  | none => rw [processAssign_eq_create hf]; exact asgUnique_create h hf
  | some ex =>
    cases hact : ex.isActive with
    | true => rw [processAssign_eq_skip hf hact]; exact h
    | false => rw [processAssign_eq_react hf hact]; exact asgUnique_activate h ex.id

theorem asgUnique_processSubject {ts : TxState} (h : AsgUnique ts.db)
    (tid : Nat) (g s : String) (sid : Nat) (subj : String) :
    AsgUnique (processSubject tid g s sid subj ts).db := by
  cases hss : findActiveSS ts.db sid subj with
  | some ss =>
    rw [processSubject_eq_found hss]
    exact asgUnique_processAssign h tid g s subj ss.id
  | none =>
    rw [processSubject_eq_new hss]
    exact @asgUnique_processAssign { ts with db := (createSectionSubject ts.db sid subj).2 } h tid g s subj _

theorem asgUnique_subjFold (tid : Nat) (g s : String) (sid : Nat)
    (subjects : List String) :
    ∀ ts : TxState, AsgUnique ts.db →
      AsgUnique ((subjects.foldl (fun t j => processSubject tid g s sid j t) ts)).db := by
  induction subjects with
  | nil => intro ts h; exact h
  | cons j rest ih =>
    intro ts h
    rw [List.foldl_cons]
    exact ih _ (asgUnique_processSubject h tid g s sid j)

theorem asgUnique_processKey {ts : TxState} (h : AsgUnique ts.db)
    (schoolId tid : Nat) (kv : String × List String) :
    AsgUnique (processKey schoolId tid ts kv).db := by
  unfold processKey
  split
  · exact h
  · split
    · exact h
    · split
      · exact h
      · exact asgUnique_subjFold _ _ _ _ _ _ h

theorem asgUnique_keyFold (schoolId tid : Nat) (keys : List (String × List String)) :
    ∀ ts : TxState, AsgUnique ts.db →
      AsgUnique ((keys.foldl (processKey schoolId tid) ts)).db := by
  induction keys with
  | nil => intro ts h; exact h
  | cons k rest ih =>
    intro ts h
    rw [List.foldl_cons]
    exact ih _ (asgUnique_processKey h schoolId tid k)

theorem asgUnique_clsDb {db : DB} (h : AsgUnique db) (schoolId tid : Nat)
    (cg cs : Option String) : AsgUnique (clsDb schoolId tid cg cs db) := by
  unfold clsDb
  split
  · split
    · exact h
    · split
      · exact h
      · split
        · exact h
        · split
          · split
            · exact h
            · exact h
          · exact h
  · exact h

theorem asgUnique_smartAssign {db : DB} (h : AsgUnique db) (schoolId : Nat)
    (req : SmartAssignReq) : AsgUnique (smartAssignTutor schoolId req db).2 := by
  unfold smartAssignTutor
  cases htut : db.tutors.find? (fun t => t.id == req.tutorId && t.schoolId == schoolId) with
  | none => exact h
  | some t =>
    show AsgUnique (smartAssignTx schoolId req.tutorId req.assignments
      req.classGrade req.classSection db).1.db
    unfold smartAssignTx
    have h1 := asgUnique_keyFold schoolId req.tutorId req.assignments ⟨db, [], [], []⟩ h
    rw [show (processClassTutor schoolId req.tutorId req.classGrade req.classSection
        (req.assignments.foldl (processKey schoolId req.tutorId) ⟨db, [], [], []⟩)).1.db =
      clsDb schoolId req.tutorId req.classGrade req.classSection
        ((req.assignments.foldl (processKey schoolId req.tutorId)
          ⟨db, [], [], []⟩)).db from processClassTutor_db ..]
    exact asgUnique_clsDb h1 ..

theorem asgUnique_clear {db : DB} (h : AsgUnique db) (tid : Nat) :
    AsgUnique (clearTutorAssignments tid db) := by
  unfold AsgUnique at h ⊢
  exact h.sublist (List.filter_sublist _)

theorem asgUnique_applyOp {db : DB} (h : AsgUnique db) (op : AsgOp) :
    AsgUnique (applyOp db op) := by
  cases op with
  | smart schoolId req => exact asgUnique_smartAssign h schoolId req
  | single schoolId tid ssid =>
    show AsgUnique (assignSubjectToTutor schoolId tid ssid db).2
    unfold assignSubjectToTutor
    split
    · exact h
    · split
      · exact h
      · split
        · split
          · exact h
          · exact asgUnique_activate h _
        · exact asgUnique_create h (by assumption)
  | replaceAll schoolId req =>
    show AsgUnique (updateTutorAssignments schoolId req db).2
    unfold updateTutorAssignments
    split
    · exact h
    · exact asgUnique_smartAssign (asgUnique_clear h req.tutorId) schoolId req
  | deleteAll tid =>
    show AsgUnique (deleteAllTutorAssignments tid db).2
    unfold deleteAllTutorAssignments
    split
    · exact h
    · exact asgUnique_clear h tid
  | remove aid =>
    show AsgUnique (removeAssignment aid db).2
    unfold removeAssignment
    split
    · exact h
    · exact h.sublist (List.filter_sublist _)

/-- C10. In every database state reachable (through the modelled
assignment operations) from a state with at most one
`TutorSubjectAssignment` row per `(tutorId, sectionSubjectId)` pair, that
uniqueness is preserved: every assignment-creating operation checks for an
existing row (active or inactive) before creating one. -/
theorem assignment_pair_unique_invariant (ops : List AsgOp) (db : DB)
    (h : AsgUnique db) : AsgUnique (ops.foldl applyOp db) := by
  induction ops generalizing db with
  | nil => exact h
  | cons op rest ih =>
    rw [List.foldl_cons]
    exact ih _ (asgUnique_applyOp h op)

/-! ## Claim C5: `createTutor` duplicate-email rejection and atomic creation -/

/-- C5. When the email already belongs to a Tutor row or a User row,
`createTutor` returns 409 and the database is unchanged (neither a Tutor
nor a User row is created); otherwise it returns 201 and appends exactly
one Tutor row and one linked TEACHER-role User row. -/
theorem createTutor_spec (schoolId : Nat) (name email phone : String) (db : DB)
    (hname : (name == "") = false) (hemail : (email == "") = false)
    (hphone : (phone == "") = false)
    {sch : School} (hsch : db.schools.find? (fun s => s.id == schoolId) = some sch) :
    (((∃ tu ∈ db.tutors, tu.email = email) ∨ (∃ u ∈ db.users, u.email = email)) →
      createTutor schoolId name email phone db = (409, db)) ∧
    ((¬∃ tu ∈ db.tutors, tu.email = email) → (¬∃ u ∈ db.users, u.email = email) →
      createTutor schoolId name email phone db =
        (201, { db with
          tutors := db.tutors ++ [⟨db.nextId, schoolId, name, email, phone, true⟩],
          users := db.users ++ [⟨db.nextId + 1, name, email, Role.TEACHER,
            some schoolId, some db.nextId⟩],
          nextId := db.nextId + 2 })) := by
  constructor
  · intro hdup
    cases hft : db.tutors.find? (fun t => t.email == email) with
    | some _ => simp [createTutor, hname, hemail, hphone, hsch, hft]
    | none =>
      cases hfu : db.users.find? (fun u => u.email == email) with
      | some _ => simp [createTutor, hname, hemail, hphone, hsch, hft, hfu]
      | none =>
        exfalso
        rcases hdup with ⟨tu, htm, hte⟩ | ⟨u, hum, hue⟩
        · exact List.find?_eq_none.1 hft tu htm (by simp [hte])
        · exact List.find?_eq_none.1 hfu u hum (by simp [hue])
  · intro hnt hnu
    have hft : db.tutors.find? (fun t => t.email == email) = none :=
      List.find?_eq_none.2 fun x hx => by
        simp only [beq_iff_eq]
        exact fun he => hnt ⟨x, hx, he⟩
    have hfu : db.users.find? (fun u => u.email == email) = none :=
      List.find?_eq_none.2 fun x hx => by
        simp only [beq_iff_eq]
        exact fun he => hnu ⟨x, hx, he⟩
    simp [createTutor, hname, hemail, hphone, hsch, hft, hfu]

/-! ## Claim C6: `deleteTutor` refuses without force, cascades with force -/

/-- C6. Without `force`, deleting a tutor that has an active subject
assignment or is class tutor of a section returns 400 and changes nothing;
with `force=true` the tutor row is deleted, its assignment rows are
cascade-deleted, and unrelated rows survive. -/
theorem deleteTutor_spec (tutorId : Nat) (db : DB) {t : Tutor}
    (htut : db.tutors.find? (fun x => x.id == tutorId) = some t) :
    (((∃ a ∈ db.assignments, a.tutorId = tutorId ∧ a.isActive = true) ∨
      (∃ sc ∈ db.sections, sc.classTutorId = some tutorId)) →
      deleteTutor tutorId false db = (400, db)) ∧
    ((deleteTutor tutorId true db).1 = 200 ∧
      (∀ x ∈ (deleteTutor tutorId true db).2.tutors, x.id ≠ tutorId) ∧
      (∀ a ∈ (deleteTutor tutorId true db).2.assignments, a.tutorId ≠ tutorId) ∧
      (∀ x ∈ db.tutors, x.id ≠ tutorId → x ∈ (deleteTutor tutorId true db).2.tutors) ∧
      (∀ a ∈ db.assignments, a.tutorId ≠ tutorId →
        a ∈ (deleteTutor tutorId true db).2.assignments)) := by
  constructor
  · intro hbusy
    have hcond : (0 < (db.assignments.filter fun a => a.tutorId == tutorId).length ||
        0 < (db.sections.filter fun sc => sc.classTutorId == some tutorId).length) =
        true := by
      rcases hbusy with ⟨a, ham, hat, _⟩ | ⟨sc, hsm, hst⟩
      · have : a ∈ db.assignments.filter fun a => a.tutorId == tutorId :=
          List.mem_filter.2 ⟨ham, by simp [hat]⟩
        have hpos := List.length_pos.2 (List.ne_nil_of_mem this)
        simp [hpos]
      · have : sc ∈ db.sections.filter fun sc => sc.classTutorId == some tutorId :=
          List.mem_filter.2 ⟨hsm, by simp [hst]⟩
        have hpos := List.length_pos.2 (List.ne_nil_of_mem this)
        simp [hpos]
    simp [deleteTutor, htut, hcond]
  · have hcall : deleteTutor tutorId true db =
        (200, { db with
          tutors := db.tutors.filter fun x => !(x.id == tutorId),
          users := db.users.filter fun u => !(u.tutorId == some tutorId),
          assignments := db.assignments.filter fun a => !(a.tutorId == tutorId),
          sections := db.sections.map fun sc =>
            if sc.classTutorId == some tutorId then { sc with classTutorId := none }
            else sc }) := by
      simp [deleteTutor, htut]
    rw [hcall]
    refine ⟨rfl, ?_, ?_, ?_, ?_⟩
    · intro x hx
      have := List.of_mem_filter (p := fun x : Tutor => !(x.id == tutorId)) hx
      simpa using this
    · intro a ha
      have := List.of_mem_filter
        (p := fun a : TutorSubjectAssignment => !(a.tutorId == tutorId)) ha
      simpa using this
    · intro x hx hne
      exact List.mem_filter.2 ⟨hx, by simpa using hne⟩
    · intro a ha hne
      exact List.mem_filter.2 ⟨ha, by simpa using hne⟩

/-! ## Claim C8: default display order of `createGrade` -/

theorem ssFold_grades (secId : Nat) :
    ∀ (names : List String) (d : DB),
      ((names.foldl (fun d2 n => (createSectionSubject d2 secId n).2) d)).grades =
        d.grades := by
  intro names
  induction names with
  | nil => intro d; rfl
  | cons n rest ih =>
    intro d
    rw [List.foldl_cons, ih]
    rfl

theorem createGradeSections_cons (gradeId : Nat) (sd : String × List String)
    (rest : List (String × List String)) (db : DB) :
    createGradeSections gradeId (sd :: rest) db =
      createGradeSections gradeId rest
        (sd.2.foldl (fun d2 n => (createSectionSubject d2 db.nextId n).2)
          { db with
            sections := db.sections ++ [⟨db.nextId, gradeId, sd.1, none, true⟩],
            nextId := db.nextId + 1 }) := by
  unfold createGradeSections
  rw [List.foldl_cons]

theorem createGradeSections_grades :
    ∀ (sections : List (String × List String)) (gradeId : Nat) (db : DB),
      (createGradeSections gradeId sections db).grades = db.grades := by
  intro sections
  induction sections with
  | nil => intro gradeId db; rfl
  | cons sd rest ih =>
    intro gradeId db
    rw [createGradeSections_cons, ih, ssFold_grades]

/-- C8 (amended): when `createGrade` is called without an explicit order
and its validations pass, the new grade's order is the number of the
school's existing grade rows plus one (hence 1 when the school has no
grades) — a count, not the maximum existing order. -/
theorem createGrade_order_count (schoolId : Nat) (gradeName : String)
    (sections : List (String × List String)) (db : DB)
    (hname : (gradeName == "") = false) (hsec : sections.isEmpty = false)
    (hdup : db.grades.find?
      (fun g => g.schoolId == schoolId && g.name == gradeName) = none) :
    (createGrade schoolId gradeName none sections db).1 = 201 ∧
    ∃ g ∈ (createGrade schoolId gradeName none sections db).2.grades,
      g.name = gradeName ∧ g.schoolId = schoolId ∧
      g.order = ((db.grades.filter fun g => g.schoolId == schoolId).length : Int) + 1 := by
  have hcall : createGrade schoolId gradeName none sections db =
      (201, createGradeSections db.nextId sections
        { db with
          grades := db.grades ++ [⟨db.nextId, schoolId, gradeName,
            ((db.grades.filter fun g => g.schoolId == schoolId).length : Int) + 1, true⟩],
          nextId := db.nextId + 1 }) := by
    unfold createGrade
    rw [hname, hsec, hdup]
    rfl
  rw [hcall]
  refine ⟨rfl, ⟨db.nextId, schoolId, gradeName,
    ((db.grades.filter fun g => g.schoolId == schoolId).length : Int) + 1, true⟩, ?_, rfl, rfl, rfl⟩
  show _ ∈ (createGradeSections _ _ _).grades
  rw [createGradeSections_grades]
  exact List.mem_append_right _ (List.mem_singleton.2 rfl)

/-- A database with a single school whose one grade has display order 5. -/
def dbC8 : DB :=
  { schools := [⟨1, "SCH", true⟩],
    grades := [⟨10, 1, "Grade 1", 5, true⟩],
    sections := [], sectionSubjects := [], assignments := [], tutors := [],
    users := [], nextId := 20 }

/-- C8 counterexample: with one existing grade of order 5, creating a grade
without an explicit order gives the new grade order 2 (count+1), not 6
(max+1) as the claim states. -/
theorem createGrade_order_counterexample :
    (∀ g ∈ (createGrade 1 "Grade 2" none [("A", [])] dbC8).2.grades,
      g.name = "Grade 2" → g.order = 2) ∧
    (∃ g ∈ (createGrade 1 "Grade 2" none [("A", [])] dbC8).2.grades,
      g.name = "Grade 2") ∧
    ((2 : Int) ≠ 5 + 1) := by
  decide

/-! ## Claim C4: infrastructure for the reactivation round-trip -/

/-- The `(sectionId, name)` key predicate used to match subject rows. -/
def keyPred (sid : Nat) (n : String) (ss : SectionSubject) : Bool :=
  ss.sectionId == sid && ss.name == n

/-- All subject rows carrying a given `(sectionId, name)` key. -/
def filterKey (db : DB) (sid : Nat) (n : String) : List SectionSubject :=
  db.sectionSubjects.filter (keyPred sid n)

/-- Well-formedness of the subject table: distinct row ids, all below the
fresh-id counter. -/
def WfSS (db : DB) : Prop :=
  (db.sectionSubjects.map (fun ss => ss.id)).Nodup ∧
  ∀ r ∈ db.sectionSubjects, r.id < db.nextId

/-- At most one subject row per `(sectionId, name)` (the uniqueness the
schema enforces with the `SectionSubject_sectionId_name_key` index). -/
def SSKeyUnique (db : DB) : Prop :=
  db.sectionSubjects.Pairwise fun a b => ¬(a.sectionId = b.sectionId ∧ a.name = b.name)

/-- No active subject row with the given key. -/
def NoActiveKey (db : DB) (sid : Nat) (n : String) : Prop :=
  ∀ r ∈ db.sectionSubjects, keyPred sid n r = true → r.isActive = false

theorem map_id_on {α : Type _} {f : α → α} :
    ∀ {l : List α}, (∀ a ∈ l, f a = a) → l.map f = l := by
  intro l
  induction l with
  | nil => intro _; rfl
  | cons a rest ih =>
    intro h
    rw [List.map_cons, h a (List.mem_cons_self a rest),
      ih fun b hb => h b (List.mem_cons_of_mem a hb)]

theorem filter_map_comm {α : Type _} (f : α → α) (p : α → Bool)
    (hp : ∀ a, p (f a) = p a) :
    ∀ (l : List α), (l.map f).filter p = (l.filter p).map f := by
  intro l
  induction l with
  | nil => rfl
  | cons a rest ih =>
    rw [List.map_cons]
    by_cases ha : p a = true
    · rw [List.filter_cons_of_pos (by rw [hp a]; exact ha),
        List.filter_cons_of_pos ha, List.map_cons, ih]
    · rw [List.filter_cons_of_neg (by rw [hp a]; exact ha),
        List.filter_cons_of_neg ha, ih]

theorem nodup_map_inj_on {α β : Type _} {g : α → β} :
    ∀ {l : List α}, (l.map g).Nodup →
      ∀ x ∈ l, ∀ y ∈ l, g x = g y → x = y := by
  intro l
  induction l with
  | nil => intro _ x hx; cases hx
  | cons a rest ih =>
    intro hnd x hx y hy hgxy
    rw [List.map_cons, List.nodup_cons] at hnd
    rcases List.mem_cons.1 hx with hxa | hx' <;> rcases List.mem_cons.1 hy with hya | hy'
    · exact hxa.trans hya.symm
    · exfalso
      have h1 : g a = g y := by rw [← hxa]; exact hgxy
      exact hnd.1 (by rw [h1]; exact List.mem_map_of_mem g hy')
    · exfalso
      have h2 : g a = g x := by rw [← hya]; exact hgxy.symm
      exact hnd.1 (by rw [h2]; exact List.mem_map_of_mem g hx')
    · exact ih hnd.2 x hx' y hy' hgxy

theorem sskey_filter_list {ss0 : SectionSubject} :
    ∀ (l : List SectionSubject),
      (l.Pairwise fun a b => ¬(a.sectionId = b.sectionId ∧ a.name = b.name)) →
      ss0 ∈ l → l.filter (keyPred ss0.sectionId ss0.name) = [ss0] := by
  intro l
  induction l with
  | nil => intro _ hmem; cases hmem
  | cons x rest ih =>
    intro hku hmem
    rw [List.pairwise_cons] at hku
    rcases List.mem_cons.1 hmem with rfl | hmem'
    · rw [List.filter_cons_of_pos (by simp [keyPred])]
      have hnil : rest.filter (keyPred ss0.sectionId ss0.name) = [] := by
        rw [List.filter_eq_nil_iff]
        intro b hb hpb
        have hk : b.sectionId = ss0.sectionId ∧ b.name = ss0.name := by
          simpa [keyPred] using hpb
        exact hku.1 b hb ⟨hk.1.symm, hk.2.symm⟩
      rw [hnil]
    · have hpx : keyPred ss0.sectionId ss0.name x = false := by
        by_contra hc
        have hx : x.sectionId = ss0.sectionId ∧ x.name = ss0.name := by
          have := Bool.of_not_eq_false hc
          simpa [keyPred] using this
        exact hku.1 ss0 hmem' ⟨hx.1, hx.2⟩
      rw [List.filter_cons_of_neg (by simp [hpx]), ih hku.2 hmem']

/-- Under key uniqueness, the key filter of a member row is exactly that
row. -/
theorem sskey_filter_eq {db : DB} (hku : SSKeyUnique db) {ss0 : SectionSubject}
    (hmem : ss0 ∈ db.sectionSubjects) :
    filterKey db ss0.sectionId ss0.name = [ss0] :=
  sskey_filter_list db.sectionSubjects hku hmem

theorem keyPred_iff {sid : Nat} {n : String} {x : SectionSubject} :
    keyPred sid n x = true ↔ x.sectionId = sid ∧ x.name = n := by
  simp [keyPred]

theorem ssids_activate (db : DB) (aid : Nat) :
    ((activateSS db aid).sectionSubjects.map fun ss => ss.id) =
      db.sectionSubjects.map fun ss => ss.id := by
  show ((db.sectionSubjects.map fun ss =>
    if ss.id == aid then { ss with isActive := true } else ss).map fun ss => ss.id) = _
  rw [List.map_map]
  apply List.map_congr_left
  intro x _
  by_cases hx : x.id = aid <;> simp [hx]

theorem ssids_deactivate (db : DB) (aid : Nat) :
    ((deactivateSS db aid).sectionSubjects.map fun ss => ss.id) =
      db.sectionSubjects.map fun ss => ss.id := by
  show ((db.sectionSubjects.map fun ss =>
    if ss.id == aid then { ss with isActive := false } else ss).map fun ss => ss.id) = _
  rw [List.map_map]
  apply List.map_congr_left
  intro x _
  by_cases hx : x.id = aid <;> simp [hx]

theorem wfSS_activate {db : DB} (h : WfSS db) (aid : Nat) : WfSS (activateSS db aid) := by
  obtain ⟨hnd, hlt⟩ := h
  constructor
  · rw [ssids_activate]
    exact hnd
  · intro r hr
    obtain ⟨x, hx, rfl⟩ := List.mem_map.1 hr
    by_cases hx2 : (x.id == aid) = true <;> simp [hx2] <;> exact hlt x hx

theorem wfSS_deactivate {db : DB} (h : WfSS db) (aid : Nat) :
    WfSS (deactivateSS db aid) := by
  obtain ⟨hnd, hlt⟩ := h
  constructor
  · rw [ssids_deactivate]
    exact hnd
  · intro r hr
    obtain ⟨x, hx, rfl⟩ := List.mem_map.1 hr
    by_cases hx2 : (x.id == aid) = true <;> simp [hx2] <;> exact hlt x hx

theorem wfSS_create {db : DB} (h : WfSS db) (sid : Nat) (n : String) :
    WfSS (createSectionSubject db sid n).2 := by
  obtain ⟨hnd, hlt⟩ := h
  constructor
  · show ((db.sectionSubjects ++
      [(⟨db.nextId, sid, n, true⟩ : SectionSubject)]).map fun ss => ss.id).Nodup
    rw [List.map_append, List.nodup_append]
    refine ⟨hnd, List.nodup_singleton _, ?_⟩
    intro x hx hmem
    simp only [List.map_cons, List.map_nil, List.mem_singleton] at hmem
    obtain ⟨y, hy, rfl⟩ := List.mem_map.1 hx
    have := hlt y hy
    rw [hmem] at this
    exact Nat.lt_irrefl _ this
  · intro r hr
    rcases List.mem_append.1 hr with hl | hs
    · exact Nat.lt_succ_of_lt (hlt r hl)
    · rw [List.mem_singleton.1 hs]
      exact Nat.lt_succ_self _

theorem sskeyUnique_activate {db : DB} (h : SSKeyUnique db) (aid : Nat) :
    SSKeyUnique (activateSS db aid) := by
  unfold SSKeyUnique at h ⊢
  show List.Pairwise _ (db.sectionSubjects.map fun ss =>
    if ss.id == aid then { ss with isActive := true } else ss)
  rw [List.pairwise_map]
  refine h.imp ?_
  intro a b hab
  by_cases ha : (a.id == aid) = true <;> by_cases hb : (b.id == aid) = true <;>
    simp [ha, hb] <;> exact fun h1 h2 => hab ⟨h1, h2⟩

theorem sskeyUnique_deactivate {db : DB} (h : SSKeyUnique db) (aid : Nat) :
    SSKeyUnique (deactivateSS db aid) := by
  unfold SSKeyUnique at h ⊢
  show List.Pairwise _ (db.sectionSubjects.map fun ss =>
    if ss.id == aid then { ss with isActive := false } else ss)
  rw [List.pairwise_map]
  refine h.imp ?_
  intro a b hab
  by_cases ha : (a.id == aid) = true <;> by_cases hb : (b.id == aid) = true <;>
    simp [ha, hb] <;> exact fun h1 h2 => hab ⟨h1, h2⟩

theorem sskeyUnique_create {db : DB} (h : SSKeyUnique db) {sid : Nat} {n : String}
    (hno : filterKey db sid n = []) :
    SSKeyUnique (createSectionSubject db sid n).2 := by
  unfold SSKeyUnique at h ⊢
  show List.Pairwise _ (db.sectionSubjects ++ [(⟨db.nextId, sid, n, true⟩ : SectionSubject)])
  rw [List.pairwise_append]
  refine ⟨h, List.pairwise_singleton _ _, ?_⟩
  intro a ha b hb
  rw [List.mem_singleton.1 hb]
  intro hcon
  have hpa : keyPred sid n a = true := keyPred_iff.2 ⟨hcon.1, hcon.2⟩
  have hmem : a ∈ filterKey db sid n := List.mem_filter.2 ⟨ha, hpa⟩
  rw [hno] at hmem
  cases hmem

theorem addStep_wf {d : DB} (h : WfSS d) (sid : Nat) (n : String) :
    WfSS (addSubjectStep sid d n) := by
  unfold addSubjectStep
  split
  · exact wfSS_activate h _
  · exact wfSS_create h sid n

theorem addStep_keyUnique {d : DB} (hku : SSKeyUnique d) {sid : Nat}
    {n : String} (hnoact : NoActiveKey d sid n) :
    SSKeyUnique (addSubjectStep sid d n) := by
  unfold addSubjectStep
  cases hfind : d.sectionSubjects.find?
      (fun ss => ss.sectionId == sid && ss.name == n && ss.isActive == false) with
  | some ex => exact sskeyUnique_activate hku ex.id
  | none =>
    apply sskeyUnique_create hku
    unfold filterKey
    rw [List.filter_eq_nil_iff]
    intro r hr hpr
    have hkey := keyPred_iff.1 hpr
    have hinact : r.isActive = false := hnoact r hr hpr
    have hnone := List.find?_eq_none.1 hfind r hr
    apply hnone
    simp [hkey.1, hkey.2, hinact]

theorem addStep_noActive {d : DB} (hwf : WfSS d) {sid : Nat} {m : String}
    (hm : NoActiveKey d sid m) {n : String} (hne : m ≠ n) :
    NoActiveKey (addSubjectStep sid d n) sid m := by
  unfold addSubjectStep
  cases hfind : d.sectionSubjects.find?
      (fun ss => ss.sectionId == sid && ss.name == n && ss.isActive == false) with
  | some ex =>
    have hexmem : ex ∈ d.sectionSubjects := List.mem_of_find?_eq_some hfind
    have hexname : ex.name = n := by
      have h1 := List.find?_some hfind
      simp only [Bool.and_eq_true, beq_iff_eq] at h1
      exact h1.1.2
    intro y hy hky
    obtain ⟨x, hx, rfl⟩ := List.mem_map.1 hy
    by_cases hxid : (x.id == ex.id) = true
    · exfalso
      have hxex : x = ex := nodup_map_inj_on hwf.1 x hx ex hexmem (by simpa using hxid)
      rw [if_pos hxid] at hky
      have hxn : x.name = m := (keyPred_iff.1 hky).2
      apply hne
      rw [← hxn, hxex, hexname]
    · rw [if_neg hxid] at hky ⊢
      exact hm x hx hky
  | none =>
    intro y hy hky
    rcases List.mem_append.1 hy with hl | hs
    · exact hm y hl hky
    · rw [List.mem_singleton.1 hs] at hky ⊢
      exact absurd (keyPred_iff.1 hky).2 hne.symm

theorem addStep_filter_other {d : DB} (hwf : WfSS d) {sid : Nat} {n n' : String}
    (hne : n' ≠ n) :
    filterKey (addSubjectStep sid d n') sid n = filterKey d sid n := by
  unfold addSubjectStep
  cases hfind : d.sectionSubjects.find?
      (fun ss => ss.sectionId == sid && ss.name == n' && ss.isActive == false) with
  | some ex =>
    have hexmem : ex ∈ d.sectionSubjects := List.mem_of_find?_eq_some hfind
    have hexname : ex.name = n' := by
      have h1 := List.find?_some hfind
      simp only [Bool.and_eq_true, beq_iff_eq] at h1
      exact h1.1.2
    show ((d.sectionSubjects.map fun ss =>
      if ss.id == ex.id then { ss with isActive := true } else ss).filter
        (keyPred sid n)) = _
    rw [filter_map_comm _ _ (fun a => by
      by_cases ha : (a.id == ex.id) = true <;> simp [ha, keyPred])]
    apply map_id_on
    intro x hx
    have hxk := keyPred_iff.1 (List.mem_filter.1 hx).2
    have hxmem := (List.mem_filter.1 hx).1
    have hxne : x ≠ ex := by
      intro hc
      rw [hc] at hxk
      exact hne (hexname ▸ hxk.2)
    have hxid : ¬(x.id == ex.id) = true := by
      intro hc
      exact hxne (nodup_map_inj_on hwf.1 x hxmem ex hexmem (by simpa using hc))
    rw [if_neg hxid]
  | none =>
    show ((d.sectionSubjects ++
      [(⟨d.nextId, sid, n', true⟩ : SectionSubject)]).filter (keyPred sid n)) = _
    rw [List.filter_append]
    have hnil : ([(⟨d.nextId, sid, n', true⟩ : SectionSubject)].filter
        (keyPred sid n)) = [] := by
      rw [List.filter_eq_nil_iff]
      intro b hb
      rw [List.mem_singleton.1 hb]
      intro hpb
      exact hne ((keyPred_iff.1 hpb).2)
    rw [hnil, List.append_nil]
    rfl

theorem addStep_filter_same {d : DB} {sid : Nat} {n : String} {r : SectionSubject}
    (hfk : filterKey d sid n = [r]) (hr : r.isActive = false) :
    filterKey (addSubjectStep sid d n) sid n = [{ r with isActive := true }] := by
  have hfind : d.sectionSubjects.find?
      (fun ss => ss.sectionId == sid && ss.name == n && ss.isActive == false) = some r := by
    rw [find?_eq_filter_head]
    have hcomm : d.sectionSubjects.filter
        (fun ss => ss.sectionId == sid && ss.name == n && ss.isActive == false) =
        (d.sectionSubjects.filter (keyPred sid n)).filter
          (fun ss => ss.isActive == false) := by
      rw [List.filter_filter]
      apply List.filter_congr
      intro a _
      simp only [keyPred]
      rw [Bool.and_comm]
    rw [hcomm]
    show ((filterKey d sid n).filter fun ss => ss.isActive == false).head? = _
    rw [hfk, List.filter_cons_of_pos (by simp [hr])]
    rfl
  unfold addSubjectStep
  rw [hfind]
  show ((d.sectionSubjects.map fun ss =>
    if ss.id == r.id then { ss with isActive := true } else ss).filter
      (keyPred sid n)) = _
  rw [filter_map_comm _ _ (fun a => by
    by_cases ha : (a.id == r.id) = true <;> simp [ha, keyPred])]
  show ((filterKey d sid n).map fun ss =>
    if ss.id == r.id then { ss with isActive := true } else ss) = _
  rw [hfk]
  simp

theorem deac_filterKey (d : DB) (aid sid : Nat) (m : String) :
    filterKey (deactivateSS d aid) sid m =
      (filterKey d sid m).map
        fun ss => if ss.id == aid then { ss with isActive := false } else ss := by
  show ((d.sectionSubjects.map fun ss =>
    if ss.id == aid then { ss with isActive := false } else ss).filter
      (keyPred sid m)) = _
  rw [filter_map_comm _ _ (fun a => by
    by_cases ha : (a.id == aid) = true <;> simp [ha, keyPred])]
  rfl

theorem addsFold_preserve {sid : Nat} {m : String} :
    ∀ (ns : List String) (d : DB), WfSS d → SSKeyUnique d → ns.Nodup →
      (∀ n ∈ ns, NoActiveKey d sid n) → m ∉ ns →
      WfSS (ns.foldl (addSubjectStep sid) d) ∧
      SSKeyUnique (ns.foldl (addSubjectStep sid) d) ∧
      filterKey (ns.foldl (addSubjectStep sid) d) sid m = filterKey d sid m := by
  intro ns
  induction ns with
  | nil => exact fun d hwf hku _ _ _ => ⟨hwf, hku, rfl⟩
  | cons n rest ih =>
    intro d hwf hku hnd hnoact hm
    rw [List.nodup_cons] at hnd
    have hstep := ih (addSubjectStep sid d n)
      (addStep_wf hwf sid n)
      (addStep_keyUnique hku (hnoact n (List.mem_cons_self n rest)))
      hnd.2
      (fun n2 hn2 => addStep_noActive hwf
        (hnoact n2 (List.mem_cons_of_mem n hn2))
        (fun hc => hnd.1 (hc ▸ hn2)))
      (fun hc => hm (List.mem_cons_of_mem n hc))
    refine ⟨hstep.1, hstep.2.1, ?_⟩
    rw [List.foldl_cons] at *
    rw [hstep.2.2]
    exact addStep_filter_other hwf (fun hc => hm (hc ▸ List.mem_cons_self n rest))

theorem addsFold_reactivates {sid : Nat} {r : SectionSubject} :
    ∀ (ns1 : List String) {ns2 : List String} (d : DB), WfSS d → SSKeyUnique d →
      (ns1 ++ r.name :: ns2).Nodup →
      (∀ n ∈ ns1 ++ r.name :: ns2, NoActiveKey d sid n) →
      filterKey d sid r.name = [r] → r.isActive = false →
      WfSS ((ns1 ++ r.name :: ns2).foldl (addSubjectStep sid) d) ∧
      SSKeyUnique ((ns1 ++ r.name :: ns2).foldl (addSubjectStep sid) d) ∧
      filterKey ((ns1 ++ r.name :: ns2).foldl (addSubjectStep sid) d) sid r.name =
        [{ r with isActive := true }] := by
  intro ns1
  induction ns1 with
  | nil =>
    intro ns2 d hwf hku hnd hnoact hfk hr
    rw [List.nil_append] at *
    rw [List.foldl_cons]
    rw [List.nodup_cons] at hnd
    have hwf1 := addStep_wf hwf sid r.name
    have hku1 := addStep_keyUnique hku (hnoact r.name (List.mem_cons_self _ _))
    have hfk1 := addStep_filter_same hfk hr
    have hrest := addsFold_preserve ns2 (addSubjectStep sid d r.name)
      hwf1 hku1 hnd.2
      (fun n2 hn2 => addStep_noActive hwf
        (hnoact n2 (List.mem_cons_of_mem _ hn2))
        (fun hc => hnd.1 (hc ▸ hn2)))
      hnd.1
    exact ⟨hrest.1, hrest.2.1, hrest.2.2.trans hfk1⟩
  | cons n rest ih =>
    intro ns2 d hwf hku hnd hnoact hfk hr
    rw [List.cons_append] at *
    rw [List.nodup_cons] at hnd
    rw [List.foldl_cons]
    have hnm : n ≠ r.name := by
      intro hc
      exact hnd.1 (hc ▸ List.mem_append_right rest (List.mem_cons_self _ _))
    refine ih (addSubjectStep sid d n)
      (addStep_wf hwf sid n)
      (addStep_keyUnique hku (hnoact n (List.mem_cons_self _ _)))
      hnd.2
      (fun n2 hn2 => addStep_noActive hwf
        (hnoact n2 (List.mem_cons_of_mem n hn2))
        (fun hc => hnd.1 (hc ▸ hn2)))
      ?_ hr
    rw [addStep_filter_other hwf hnm]
    exact hfk

theorem deacFold_filter {sid : Nat} {m : String} {r : SectionSubject} :
    ∀ (l : List SectionSubject) (d : DB), SSKeyUnique d →
      filterKey d sid m = [r] →
      (∀ ss ∈ l, ss.id ≠ r.id) →
      SSKeyUnique (l.foldl (fun d2 ss => deactivateSS d2 ss.id) d) ∧
      filterKey (l.foldl (fun d2 ss => deactivateSS d2 ss.id) d) sid m = [r] := by
  intro l
  induction l with
  | nil => exact fun d hku hfk _ => ⟨hku, hfk⟩
  | cons a rest ih =>
    intro d hku hfk hid
    rw [List.foldl_cons]
    refine ih (deactivateSS d a.id) (sskeyUnique_deactivate hku a.id) ?_
      (fun ss hss => hid ss (List.mem_cons_of_mem a hss))
    rw [deac_filterKey, hfk]
    have hra : ¬(r.id == a.id) = true := by
      intro hc
      exact hid a (List.mem_cons_self a rest) (beq_iff_eq.mp hc).symm
    rw [List.map_cons, List.map_nil, if_neg hra]

def dbC4 : DB :=
  { schools := []
    grades := []
    sections := [⟨1, 0, "A", none, true⟩]
    sectionSubjects := [⟨2, 1, "Math", false⟩]
    assignments := []
    tutors := []
    users := []
    nextId := 3 }

/-- C4: reactivation round-trip for `updateSectionSubjects`.  Start from a
database whose subject table is well formed (distinct ids below the
fresh-id counter) and satisfies the `(sectionId, name)` uniqueness the
schema enforces.  Deactivated row `ss0` of the section carries a name that
appears in the requested subject list.  Then the call succeeds (200) and
afterwards the rows keyed `(sectionId, ss0.name)` are exactly the single
row `{ ss0 with isActive := true }`: the subject is reactivated with its
original id rather than recreated, it is active, it is matched by
`(sectionId, name)`, and it is never duplicated; key uniqueness holds of
the whole resulting subject table. -/
theorem updateSectionSubjects_reactivates
    {db : DB} {sectionId : Nat} {subjects : List String} {sec : Section}
    {ss0 : SectionSubject}
    (hsec : db.sections.find? (fun s => s.id == sectionId) = some sec)
    (hwf : WfSS db) (hku : SSKeyUnique db)
    (hmem : ss0 ∈ db.sectionSubjects) (hsid : ss0.sectionId = sectionId)
    (hinact : ss0.isActive = false) (hname : ss0.name ∈ subjects)
    (hnd : subjects.Nodup) :
    (updateSectionSubjects sectionId subjects db).1 = 200 ∧
    filterKey (updateSectionSubjects sectionId subjects db).2 sectionId ss0.name =
      [{ ss0 with isActive := true }] ∧
    SSKeyUnique (updateSectionSubjects sectionId subjects db).2 := by
  have hfk0 : filterKey db sectionId ss0.name = [ss0] := by
    rw [← hsid]
    exact sskey_filter_eq hku hmem
  have hres : updateSectionSubjects sectionId subjects db =
      (200,
        ((db.sectionSubjects.filter fun ss => ss.sectionId == sectionId && ss.isActive).filter
            fun ss => !subjects.contains ss.name).foldl
          (fun d ss => deactivateSS d ss.id)
          ((subjects.filter fun n =>
              !((db.sectionSubjects.filter fun ss =>
                  ss.sectionId == sectionId && ss.isActive).map
                fun ss => ss.name).contains n).foldl
            (addSubjectStep sectionId) db)) := by
    unfold updateSectionSubjects
    rw [hsec]
  have hnotin : ss0.name ∉ (db.sectionSubjects.filter fun ss =>
      ss.sectionId == sectionId && ss.isActive).map fun ss => ss.name := by
    intro hc
    obtain ⟨r, hrcur, hrname⟩ := List.mem_map.1 hc
    have hrf := List.mem_filter.1 hrcur
    have hprops : r.sectionId = sectionId ∧ r.isActive = true := by
      have := hrf.2
      simpa using this
    have hrk : r ∈ filterKey db sectionId ss0.name :=
      List.mem_filter.2 ⟨hrf.1, keyPred_iff.2 ⟨hprops.1, hrname⟩⟩
    rw [hfk0, List.mem_singleton] at hrk
    rw [hrk] at hprops
    rw [hinact] at hprops
    cases hprops.2
  have hmemAdd : ss0.name ∈ subjects.filter fun n =>
      !((db.sectionSubjects.filter fun ss =>
          ss.sectionId == sectionId && ss.isActive).map fun ss => ss.name).contains n :=
    List.mem_filter.2 ⟨hname, by simpa using hnotin⟩
  obtain ⟨ns1, ns2, hsplit⟩ := List.append_of_mem hmemAdd
  have hndAdd : (ns1 ++ ss0.name :: ns2).Nodup := by
    rw [← hsplit]
    exact hnd.filter _
  have hnoactAll : ∀ n ∈ ns1 ++ ss0.name :: ns2, NoActiveKey db sectionId n := by
    intro n hn
    rw [← hsplit] at hn
    have hn2 : ¬((db.sectionSubjects.filter fun ss =>
        ss.sectionId == sectionId && ss.isActive).map fun ss => ss.name).contains n = true := by
      have := (List.mem_filter.1 hn).2
      simp only [Bool.not_eq_true'] at this
      rw [this]
      exact Bool.false_ne_true
    intro r hr hkr
    cases hb : r.isActive with
    | false => rfl
    | true =>
      exfalso
      apply hn2
      have hrcur : r ∈ db.sectionSubjects.filter fun ss =>
          ss.sectionId == sectionId && ss.isActive :=
        List.mem_filter.2 ⟨hr, by simp [(keyPred_iff.1 hkr).1, hb]⟩
      have hnmem : n ∈ (db.sectionSubjects.filter fun ss =>
          ss.sectionId == sectionId && ss.isActive).map fun ss => ss.name := by
        rw [← (keyPred_iff.1 hkr).2]
        exact List.mem_map_of_mem _ hrcur
      simpa using hnmem
  have h1 := @addsFold_reactivates sectionId ss0 ns1 ns2 db hwf hku hndAdd hnoactAll hfk0 hinact
  have hdi : ∀ ss ∈ (db.sectionSubjects.filter fun ss =>
      ss.sectionId == sectionId && ss.isActive).filter fun ss => !subjects.contains ss.name,
      ss.id ≠ ({ ss0 with isActive := true } : SectionSubject).id := by
    intro ss hss hc
    have hsscur := (List.mem_filter.1 hss).1
    have hssf := List.mem_filter.1 hsscur
    have hact : ss.isActive = true := by
      have := hssf.2
      simpa using (by simpa using this : ss.sectionId = sectionId ∧ ss.isActive = true).2
    have hhere : ss.id = ss0.id := hc
    have hssss0 : ss = ss0 := nodup_map_inj_on hwf.1 ss hssf.1 ss0 hmem hhere
    rw [hssss0, hinact] at hact
    cases hact
  have h2 := @deacFold_filter sectionId ss0.name { ss0 with isActive := true }
    ((db.sectionSubjects.filter fun ss => ss.sectionId == sectionId && ss.isActive).filter
      fun ss => !subjects.contains ss.name)
    ((ns1 ++ ss0.name :: ns2).foldl (addSubjectStep sectionId) db)
    h1.2.1 h1.2.2 hdi
  rw [hres, hsplit]
  exact ⟨rfl, h2.2, h2.1⟩

theorem updateSectionSubjects_reactivates_witness :
    (updateSectionSubjects 1 ["Math"] dbC4).1 = 200 ∧
    filterKey (updateSectionSubjects 1 ["Math"] dbC4).2 1 "Math" =
      [{ id := 2, sectionId := 1, name := "Math", isActive := true }] ∧
    SSKeyUnique (updateSectionSubjects 1 ["Math"] dbC4).2 :=
  @updateSectionSubjects_reactivates dbC4 1 ["Math"] ⟨1, 0, "A", none, true⟩
    ⟨2, 1, "Math", false⟩ rfl (by unfold WfSS; decide)
    (by unfold SSKeyUnique; decide) (by decide) rfl rfl (by decide) (by decide)

def dbC2 : DB :=
  { schools := [⟨1, "S", true⟩]
    grades := [⟨10, 1, "G1", 1, true⟩]
    sections := [⟨11, 10, "A", some 3, true⟩]
    sectionSubjects := []
    assignments := []
    tutors := [⟨9, 1, "T", "t@x", "p", true⟩, ⟨3, 1, "Bob", "b@x", "p", true⟩]
    users := []
    nextId := 20 }

def reqC2 : SmartAssignReq := ⟨9, [], some "G1", some "A"⟩

theorem smartAssignTutor_classTutor_spec_witness :
    (smartAssignTutor 1 reqC2 dbC2).2.sections = dbC2.sections ∧
    ("Section " ++ "G1" ++ "-" ++ "A" ++ " already has " ++ classTutorName dbC2 3 ++
      " as class tutor") ∈ (smartAssignTutor 1 reqC2 dbC2).1.errors :=
  (smartAssignTutor_classTutor_spec 1 reqC2 dbC2 rfl rfl rfl (by decide) (by decide)
    rfl rfl).1 3 rfl (by decide)

def dbC3 : DB :=
  { schools := []
    grades := []
    sections := []
    sectionSubjects := [⟨2, 1, "Math", true⟩]
    assignments := [⟨5, 9, 2, false⟩]
    tutors := []
    users := []
    nextId := 6 }

def tsC3 : TxState := ⟨dbC3, [], [], []⟩

theorem processSubject_spec_witness :
    (processSubject 9 "G" "S" 1 "Math" tsC3).db.sectionSubjects =
      tsC3.db.sectionSubjects ∧
    (∃ a2, findAssignment (processSubject 9 "G" "S" 1 "Math" tsC3).db 9 2 =
        some a2 ∧ a2.id = 5 ∧ a2.isActive = true) ∧
    (processSubject 9 "G" "S" 1 "Math" tsC3).db.assignments.length =
      tsC3.db.assignments.length ∧
    (processSubject 9 "G" "S" 1 "Math" tsC3).created =
      [⟨5, "G", "S", "Math", true⟩] := by
  have h := (processSubject_spec 9 "G" "S" 1 "Math" tsC3).1 ⟨2, 1, "Math", true⟩ rfl
  have h2 := (h.2.1 ⟨5, 9, 2, false⟩ rfl).2 rfl
  exact ⟨h.1, h2.1, h2.2.1, h2.2.2⟩

def dbC5 : DB :=
  { schools := [⟨1, "S", true⟩]
    grades := []
    sections := []
    sectionSubjects := []
    assignments := []
    tutors := [⟨2, 1, "T", "dup@x", "p", true⟩]
    users := []
    nextId := 3 }

theorem createTutor_spec_witness :
    createTutor 1 "N" "dup@x" "p" dbC5 = (409, dbC5) :=
  (createTutor_spec 1 "N" "dup@x" "p" dbC5 (by decide) (by decide) (by decide)
    rfl).1 (Or.inl ⟨⟨2, 1, "T", "dup@x", "p", true⟩, by decide, rfl⟩)

def dbC6 : DB :=
  { schools := [⟨1, "S", true⟩]
    grades := []
    sections := [⟨11, 10, "A", some 7, true⟩]
    sectionSubjects := []
    assignments := [⟨4, 7, 2, true⟩]
    tutors := [⟨7, 1, "T", "t@x", "p", true⟩]
    users := []
    nextId := 20 }

theorem deleteTutor_spec_witness :
    deleteTutor 7 false dbC6 = (400, dbC6) ∧ (deleteTutor 7 true dbC6).1 = 200 :=
  ⟨(deleteTutor_spec 7 dbC6 rfl).1 (Or.inl ⟨⟨4, 7, 2, true⟩, by decide, rfl, rfl⟩),
   (deleteTutor_spec 7 dbC6 rfl).2.1⟩

def dbC7 : DB :=
  { schools := [⟨1, "S", true⟩]
    grades := []
    sections := []
    sectionSubjects := []
    assignments := []
    tutors := [⟨9, 1, "T", "t@x", "p", true⟩]
    users := []
    nextId := 20 }

theorem smartAssignTutor_malformed_key_witness :
    (smartAssignTutor 1 ⟨9, [("nokey", ["Math"])], none, none⟩ dbC7).2 =
      (smartAssignTutor 1 ⟨9, [], none, none⟩ dbC7).2 ∧
    (smartAssignTutor 1 ⟨9, [("nokey", ["Math"])], none, none⟩ dbC7).1.created =
      (smartAssignTutor 1 ⟨9, [], none, none⟩ dbC7).1.created ∧
    (smartAssignTutor 1 ⟨9, [("nokey", ["Math"])], none, none⟩ dbC7).1.skipped =
      (smartAssignTutor 1 ⟨9, [], none, none⟩ dbC7).1.skipped ∧
    (smartAssignTutor 1 ⟨9, [("nokey", ["Math"])], none, none⟩ dbC7).1.status = 201 ∧
    ("Invalid key format: " ++ "nokey" ++ ". Expected format: \"Grade X-A\"") ∈
      (smartAssignTutor 1 ⟨9, [("nokey", ["Math"])], none, none⟩ dbC7).1.errors :=
  smartAssignTutor_malformed_key 1 dbC7 9 [] [] ("nokey", ["Math"]) none none
    (by decide) rfl

theorem createGrade_order_count_witness :
    (createGrade 1 "Grade 2" none [("A", [])] dbC8).1 = 201 ∧
    ∃ g ∈ (createGrade 1 "Grade 2" none [("A", [])] dbC8).2.grades,
      g.name = "Grade 2" ∧ g.schoolId = 1 ∧
      g.order = ((dbC8.grades.filter fun g => g.schoolId == 1).length : Int) + 1 :=
  createGrade_order_count 1 "Grade 2" [("A", [])] dbC8 (by decide) (by decide) rfl

def dbC9 : DB :=
  { schools := [⟨1, "S", true⟩]
    grades := []
    sections := [⟨11, 10, "A", some 9, true⟩]
    sectionSubjects := [⟨2, 1, "Math", true⟩]
    assignments := [⟨4, 9, 2, true⟩]
    tutors := [⟨9, 1, "T", "t@x", "p", true⟩]
    users := []
    nextId := 20 }

def reqC9 : SmartAssignReq := ⟨9, [("bad", ["Math"])], none, none⟩

theorem updateTutorAssignments_not_atomic_witness :
    updateTutorAssignments 1 reqC9 dbC9 =
      smartAssignTutor 1 reqC9 (clearTutorAssignments 9 dbC9) ∧
    (updateTutorAssignments 1 reqC9 dbC9).1.errors.length = 1 ∧
    (∀ a ∈ (updateTutorAssignments 1 reqC9 dbC9).2.assignments, a.tutorId ≠ 9) ∧
    (∀ a ∈ dbC9.assignments, a.tutorId = 9 →
      a ∉ (updateTutorAssignments 1 reqC9 dbC9).2.assignments) ∧
    (∀ s ∈ (updateTutorAssignments 1 reqC9 dbC9).2.sections,
      s.classTutorId ≠ some 9) :=
  updateTutorAssignments_not_atomic 1 reqC9 dbC9 rfl (by decide) rfl

def dbC10 : DB :=
  { schools := [⟨1, "S", true⟩]
    grades := []
    sections := []
    sectionSubjects := [⟨2, 1, "Math", true⟩]
    assignments := []
    tutors := [⟨9, 1, "T", "t@x", "p", true⟩]
    users := []
    nextId := 6 }

theorem assignment_pair_unique_invariant_witness :
    AsgUnique ([AsgOp.single 1 9 2, AsgOp.single 1 9 2].foldl applyOp dbC10) :=
  assignment_pair_unique_invariant [AsgOp.single 1 9 2, AsgOp.single 1 9 2] dbC10
    (by decide)

end Edu
